import Mathlib

/-!
Verification of the Transit-Topography engine: a shallow embedding of
`transit_engine.js`, `js/utils.js`, `js/canvas-layer.js`, `js/render-worker.js`
and the spatial-index module, together with proofs about the specification's
claims.

Modelling conventions:
* JavaScript `Map` objects are modelled by `JsMap`, an association list with
  JS `Map.set` semantics: setting an existing key updates it in place,
  setting a fresh key appends it, and iteration order is insertion order.
* JS numbers are modelled exactly: geometric code over `ℝ`, generic
  algorithmic code over an arbitrary `LinearOrderedField` (instantiated at
  `ℚ` for executable tests and at `ℝ` for geometric statements).
* String cell keys of the form `"x,y"` are modelled as pairs `(x, y) : ℤ × ℤ`;
  the JS string encoding of an integer pair is injective, so the two are
  interchangeable as `Map` keys.
* `Math.atan2` is modelled by `atan2` below following its mathematical
  specification on the four sign regions.
* Unboundedly iterating loops (the Dijkstra work loops) take explicit fuel
  and return `none` when the fuel runs out; termination and fuel-independence
  are proved separately.  Structurally bounded loops (heap sifting) take a
  fuel argument that is provably sufficient at every call site.
-/

/-! ### JsMap: association lists with JavaScript Map semantics -/

/-- Association-list model of a JavaScript `Map`. -/
structure JsMap (K V : Type) where
  entries : List (K × V)
deriving DecidableEq

namespace JsMap

def empty {K V : Type} : JsMap K V := ⟨[]⟩

/-- Lookup in an entry list: first entry with the given key. -/
def getList {K V : Type} [DecidableEq K] : List (K × V) → K → Option V
  | [], _ => none
  | e :: rest, k => if e.1 = k then some e.2 else getList rest k

/-- JS `Map.get` (with `undefined` as `none`). -/
def get {K V : Type} [DecidableEq K] (m : JsMap K V) (k : K) : Option V :=
  getList m.entries k

/-- JS `Map.has`. -/
def has {K V : Type} [DecidableEq K] (m : JsMap K V) (k : K) : Bool :=
  (m.get k).isSome

/-- JS `Map.set` on the entry list: update in place, else append. -/
def setList {K V : Type} [DecidableEq K] : List (K × V) → K → V → List (K × V)
  | [], k, v => [(k, v)]
  | e :: rest, k, v => if e.1 = k then (k, v) :: rest else e :: setList rest k v

/-- JS `Map.set`. -/
def set {K V : Type} [DecidableEq K] (m : JsMap K V) (k : K) (v : V) : JsMap K V :=
  ⟨setList m.entries k v⟩

/-- JS `Map.size`. -/
def size {K V : Type} (m : JsMap K V) : ℕ := m.entries.length

/-- Keys in iteration order. -/
def keys {K V : Type} (m : JsMap K V) : List K := m.entries.map Prod.fst

/-- Values in iteration order (JS `Map.values()`). -/
def values {K V : Type} (m : JsMap K V) : List V := m.entries.map Prod.snd

end JsMap

/-! ### Geometry: Math.atan2 and the haversine distance -/

/-- JavaScript `Math.atan2` (for finite arguments). -/
noncomputable def atan2 (y x : ℝ) : ℝ :=
  if 0 < x then Real.arctan (y / x)
  else if x < 0 then
    (if 0 ≤ y then Real.arctan (y / x) + Real.pi else Real.arctan (y / x) - Real.pi)
  else if 0 < y then Real.pi / 2
  else if y < 0 then -(Real.pi / 2)
  else 0

/-- Haversine great-circle distance in meters.  This one formula appears
verbatim as `distHaversine` in `js/utils.js`, as `TransitGraph.distHaversine`
and `WalkingNetwork._haversine` in `transit_engine.js`, and as
`distHaversine` in `js/render-worker.js`. -/
noncomputable def distHaversine (lat1 lon1 lat2 lon2 : ℝ) : ℝ :=
  let R : ℝ := 6371000
  let dLat := (lat2 - lat1) * Real.pi / 180
  let dLon := (lon2 - lon1) * Real.pi / 180
  let a := Real.sin (dLat / 2) * Real.sin (dLat / 2) +
    Real.cos (lat1 * Real.pi / 180) * Real.cos (lat2 * Real.pi / 180) *
      (Real.sin (dLon / 2) * Real.sin (dLon / 2))
  let c := 2 * atan2 (Real.sqrt a) (Real.sqrt (1 - a))
  R * c

/-- Equirectangular grid-cell key used (with varying cell sizes) by
`TransitGraph.generateTransferEdges`, `WalkingNetwork._getGridKey`,
`SpatialIndex._getKey` and `WorkerSpatialIndex._getKey`: the JS code returns
the string key `"x,y"`, modelled here as the pair `(x, y)`. -/
noncomputable def gridKey (cellSize lat lon : ℝ) : ℤ × ℤ :=
  (⌊lon * 111000 * Real.cos (lat * Real.pi / 180) / cellSize⌋,
   ⌊lat * 111000 / cellSize⌋)

/-! ### BinaryHeap (transit_engine.js lines 150-215) -/

/-- Heap entries `{ id, time }` pushed by the Dijkstra loops. -/
structure HeapElem (α : Type) where
  id : ℕ
  time : α
deriving DecidableEq

/-- One-step-per-fuel model of `BinaryHeap.bubbleUp`.  The JS `while` loop
moves the index `n` strictly down each iteration, so fuel `n` is exact. -/
def bubbleUpAux {α : Type} [LinearOrder α] :
    ℕ → List (HeapElem α) → ℕ → List (HeapElem α)
  | 0, c, _ => c
  | fuel + 1, c, n =>
    if n = 0 then c
    else
      let parentN := (n + 1) / 2 - 1
      match c.get? n, c.get? parentN with
      | some element, some parent =>
        if parent.time ≤ element.time then c
        else bubbleUpAux fuel ((c.set parentN element).set n parent) parentN
      | _, _ => c

/-- `BinaryHeap.push` on the content array. -/
def heapPushList {α : Type} [LinearOrder α] (c : List (HeapElem α)) (e : HeapElem α) :
    List (HeapElem α) :=
  bubbleUpAux c.length (c ++ [e]) c.length

/-- One-step-per-fuel model of `BinaryHeap.sinkDown`.  The index `n` at least
doubles each iteration and stays below the length, so fuel `length` is ample. -/
def sinkDownAux {α : Type} [LinearOrder α] :
    ℕ → List (HeapElem α) → ℕ → List (HeapElem α)
  | 0, c, _ => c
  | fuel + 1, c, n =>
    match c.get? n with
    | none => c
    | some element =>
      let child2N := (n + 1) * 2
      let child1N := child2N - 1
      match c.get? child1N with
      | none => c
      | some child1 =>
        match c.get? child2N with
        | none =>
          if child1.time < element.time then
            sinkDownAux fuel ((c.set n child1).set child1N element) child1N
          else c
        | some child2 =>
          if child2.time < (if child1.time < element.time then child1.time else element.time) then
            sinkDownAux fuel ((c.set n child2).set child2N element) child2N
          else if child1.time < element.time then
            sinkDownAux fuel ((c.set n child1).set child1N element) child1N
          else c

/-- `BinaryHeap.pop` on the content array: returns `content[0]`, moves the
last element to the root and sinks it down. -/
def heapPopList {α : Type} [LinearOrder α] (c : List (HeapElem α)) :
    Option (HeapElem α) × List (HeapElem α) :=
  match c with
  | [] => (none, [])
  | first :: rest =>
    match rest with
    | [] => (some first, [])
    | _ :: _ =>
      let endE := (first :: rest).getLast (List.cons_ne_nil _ _)
      let c' := (first :: rest).dropLast
      (some first, sinkDownAux c'.length (c'.set 0 endE) 0)

/-- Binary min-heap priority queue of `transit_engine.js`. -/
structure BinaryHeap (α : Type) where
  content : List (HeapElem α)

namespace BinaryHeap

def empty {α : Type} : BinaryHeap α := ⟨[]⟩

def push {α : Type} [LinearOrder α] (h : BinaryHeap α) (e : HeapElem α) : BinaryHeap α :=
  ⟨heapPushList h.content e⟩

def pop {α : Type} [LinearOrder α] (h : BinaryHeap α) :
    Option (HeapElem α) × BinaryHeap α :=
  let r := heapPopList h.content
  (r.1, ⟨r.2⟩)

def size {α : Type} (h : BinaryHeap α) : ℕ := h.content.length

end BinaryHeap

/-! ### TransitGraph (transit_engine.js lines 10-147) -/

/-- Station record `{ id, lat, lon }` kept in `TransitGraph.stations`. -/
structure StationRec where
  id : ℕ
  lat : ℝ
  lon : ℝ

/-- Graph node `{ lat, lon, neighbors, id }`; the neighbor weight type is a
parameter (`ℝ` in the source, `ℚ` for executable instances). -/
structure TGNode (α : Type) where
  lat : ℝ
  lon : ℝ
  neighbors : JsMap ℕ α
  id : ℕ

/-- The transit graph: `nodes` map plus the `stations` array. -/
structure TransitGraph (α : Type) where
  nodes : JsMap ℕ (TGNode α)
  stations : List StationRec

namespace TransitGraph

def emptyGraph {α : Type} : TransitGraph α := ⟨JsMap.empty, []⟩

/-- `TransitGraph.addNode`. -/
def addNode {α : Type} (g : TransitGraph α) (id : ℕ) (lat lon : ℝ) : TransitGraph α :=
  if g.nodes.has id then g
  else
    { nodes := g.nodes.set id ⟨lat, lon, JsMap.empty, id⟩,
      stations := g.stations ++ [⟨id, lat, lon⟩] }

/-- `TransitGraph.clear`. -/
def clear {α : Type} (_g : TransitGraph α) : TransitGraph α :=
  ⟨JsMap.empty, []⟩

/-- `TransitGraph.addEdge`: weight is haversine distance over speed, set in
both directions.  The double read models the aliasing of the two live node
objects when `id1 = id2`. -/
noncomputable def addEdge (g : TransitGraph ℝ) (id1 id2 : ℕ) (speedMps : ℝ) :
    TransitGraph ℝ :=
  match g.nodes.get id1, g.nodes.get id2 with
  | some n1, some n2 =>
    let dist := distHaversine n1.lat n1.lon n2.lat n2.lon
    let time := dist / speedMps
    let nodes1 := g.nodes.set id1 { n1 with neighbors := n1.neighbors.set id2 time }
    let nodes2 :=
      match nodes1.get id2 with
      | some m2 => nodes1.set id2 { m2 with neighbors := m2.neighbors.set id1 time }
      | none => nodes1
    { g with nodes := nodes2 }
  | _, _ => g

/-- Scan order of the 3×3 cell loop in `generateTransferEdges`
(`dx` outer from -1 to 1, `dy` inner from -1 to 1). -/
def offsets3x3 : List (ℤ × ℤ) :=
  [(-1, -1), (-1, 0), (-1, 1), (0, -1), (0, 0), (0, 1), (1, -1), (1, 0), (1, 1)]

/-- Grid construction of `generateTransferEdges` (cell size = threshold). -/
noncomputable def buildTransferGrid (cellSize : ℝ) (nodes : List (TGNode ℝ)) :
    JsMap (ℤ × ℤ) (List (TGNode ℝ)) :=
  nodes.foldl (fun gr n =>
    let key := gridKey cellSize n.lat n.lon
    match gr.get key with
    | some cell => gr.set key (cell ++ [n])
    | none => gr.set key [n]) JsMap.empty

/-- Candidate step of `generateTransferEdges`: skip self, then add/update
the walking edge `n1 → n2` at speed 1.3 m/s when within the threshold and
not slower than an existing edge. -/
noncomputable def transferUpdate (distanceThreshold : ℝ) (n1 : TGNode ℝ)
    (acc3 : JsMap ℕ (TGNode ℝ)) (n2 : TGNode ℝ) : JsMap ℕ (TGNode ℝ) :=
  if n1.id = n2.id then acc3
  else
    let dist := distHaversine n1.lat n1.lon n2.lat n2.lon
    if dist ≤ distanceThreshold then
      let time := dist / 1.3
      match acc3.get n1.id with
      | none => acc3
      | some cur =>
        match cur.neighbors.get n2.id with
        | none =>
          acc3.set n1.id { cur with neighbors := cur.neighbors.set n2.id time }
        | some told =>
          if time < told then
            acc3.set n1.id { cur with neighbors := cur.neighbors.set n2.id time }
          else acc3
    else acc3

/-- One cell of the 3×3 scan of `generateTransferEdges`: fold
`transferUpdate` over the bucket at offset `d` from `n1`'s cell, if any. -/
noncomputable def transferCell (grid : JsMap (ℤ × ℤ) (List (TGNode ℝ)))
    (distanceThreshold cellSize : ℝ) (n1 : TGNode ℝ) (acc2 : JsMap ℕ (TGNode ℝ))
    (d : ℤ × ℤ) : JsMap ℕ (TGNode ℝ) :=
  match grid.get ((gridKey cellSize n1.lat n1.lon).1 + d.1,
      (gridKey cellSize n1.lat n1.lon).2 + d.2) with
  | none => acc2
  | some cellNodes => cellNodes.foldl (transferUpdate distanceThreshold n1) acc2

/-- Per-node 3×3 cell scan of `generateTransferEdges`. -/
noncomputable def transferScanNode (grid : JsMap (ℤ × ℤ) (List (TGNode ℝ)))
    (distanceThreshold cellSize : ℝ) (acc : JsMap ℕ (TGNode ℝ)) (n1 : TGNode ℝ) :
    JsMap ℕ (TGNode ℝ) :=
  TransitGraph.offsets3x3.foldl (transferCell grid distanceThreshold cellSize n1) acc

/-- `TransitGraph.generateTransferEdges`: build a grid over all nodes with
cell size equal to the threshold, then for every node scan its 3×3
neighborhood and add/update a walking edge (speed 1.3 m/s) to every distinct
candidate within the threshold, unless an existing edge is faster.  Only the
scanning node's own neighbor map is written in its iteration (the JS comment
defers the reverse edge to the candidate's own iteration). -/
noncomputable def generateTransferEdges (g : TransitGraph ℝ) (distanceThreshold : ℝ) :
    TransitGraph ℝ :=
  let nodes := g.nodes.values
  let cellSize := distanceThreshold
  let grid := buildTransferGrid cellSize nodes
  { g with nodes := nodes.foldl (transferScanNode grid distanceThreshold cellSize) g.nodes }

/-- Adjacency view used by the specifications: the weight of the edge
`u → v`, when present. -/
def adj {α : Type} (g : TransitGraph α) (u v : ℕ) : Option α :=
  match g.nodes.get u with
  | some n => n.neighbors.get v
  | none => none

end TransitGraph

/-! ### calculateNetworkTimes (transit_engine.js lines 116-146) -/

/-- Entry `{ id, initialWalkTime }` of `calculateNetworkTimes`. -/
structure StartNode (α : Type) where
  id : ℕ
  initialWalkTime : α

/-- State of the Dijkstra loop: the `times` map and the priority queue. -/
structure CalcState (α : Type) where
  times : JsMap ℕ α
  pq : BinaryHeap α

/-- One neighbor relaxation of `calculateNetworkTimes`: `newTime =
currTime + travelTime + 15`, stored and pushed on strict improvement. -/
def relaxStep {α : Type} [LinearOrderedField α] (currTime : α) (s : CalcState α)
    (nb : ℕ × α) : CalcState α :=
  let newTime := currTime + nb.2 + 15
  match s.times.get nb.1 with
  | none => { times := s.times.set nb.1 newTime, pq := s.pq.push ⟨nb.1, newTime⟩ }
  | some t =>
    if newTime < t then
      { times := s.times.set nb.1 newTime, pq := s.pq.push ⟨nb.1, newTime⟩ }
    else s

/-- All neighbor relaxations of one popped node, in neighbor-map iteration
order. -/
def relaxNeighbors {α : Type} [LinearOrderedField α] (currTime : α) (s : CalcState α)
    (nbs : List (ℕ × α)) : CalcState α :=
  nbs.foldl (relaxStep currTime) s

/-- The `while (pq.size() > 0)` loop of `calculateNetworkTimes`, one pop per
fuel unit; `none` when the fuel is exhausted before the queue empties. -/
def calcLoop {α : Type} [LinearOrderedField α] (g : TransitGraph α) :
    ℕ → CalcState α → Option (JsMap ℕ α)
  | 0, st => if st.pq.size = 0 then some st.times else none
  | fuel + 1, st =>
    if st.pq.size = 0 then some st.times
    else
      match st.pq.pop with
      | (none, _) => some st.times
      | (some e, pq') =>
        let st1 : CalcState α := ⟨st.times, pq'⟩
        match st1.times.get e.id with
        | some t =>
          if t < e.time then calcLoop g fuel st1
          else
            match g.nodes.get e.id with
            | none => calcLoop g fuel st1
            | some nd => calcLoop g fuel (relaxNeighbors e.time st1 nd.neighbors.entries)
        | none =>
          match g.nodes.get e.id with
          | none => calcLoop g fuel st1
          | some nd => calcLoop g fuel (relaxNeighbors e.time st1 nd.neighbors.entries)

/-- `TransitGraph.calculateNetworkTimes`: seed every start node with
`initialWalkTime + transferPenalty`, then run the Dijkstra loop. -/
def calculateNetworkTimes {α : Type} [LinearOrderedField α] (g : TransitGraph α)
    (startNodes : List (StartNode α)) (transferPenalty : α) (fuel : ℕ) :
    Option (JsMap ℕ α) :=
  let init : CalcState α := startNodes.foldl (fun s start =>
    { times := s.times.set start.id (start.initialWalkTime + transferPenalty),
      pq := s.pq.push ⟨start.id, start.initialWalkTime + transferPenalty⟩ })
    ⟨JsMap.empty, BinaryHeap.empty⟩
  calcLoop g fuel init

/-! ### getColor (js/utils.js lines 17-38, duplicated in js/render-worker.js) -/

/-- Travel-time color mapping: transparent at or beyond `maxTime`, otherwise
six equal bands with `alpha = ⌊opacity * 255⌋`. -/
def getColor {α : Type} [LinearOrderedField α] [FloorRing α]
    (minutes opacity maxTime : α) : ℤ × ℤ × ℤ × ℤ :=
  if maxTime ≤ minutes then (0, 0, 0, 0)
  else
    let alpha := ⌊opacity * 255⌋
    let interval := maxTime / 6
    if minutes < interval then (59, 130, 246, alpha)
    else if minutes < interval * 2 then (6, 182, 212, alpha)
    else if minutes < interval * 3 then (16, 185, 129, alpha)
    else if minutes < interval * 4 then (132, 204, 22, alpha)
    else if minutes < interval * 5 then (250, 204, 21, alpha)
    else (249, 115, 22, alpha)

/-! ### Path costs: the specification of calculateNetworkTimes -/

/-- Cost of following the node list `l` from `u` through the graph: each
step must be an edge and contributes `edgeWeight + 15` (the stop penalty
added by the propagation loop); `none` if some step is not an edge. -/
def walkCost {α : Type} [LinearOrderedField α] (g : TransitGraph α) :
    ℕ → List ℕ → Option α
  | _, [] => some 0
  | u, v :: rest =>
    match g.adj u v with
    | some w => (walkCost g v rest).map (fun c => w + 15 + c)
    | none => none

/-- Endpoint of the node list `l` started at `u`. -/
def walkEnd (u : ℕ) (l : List ℕ) : ℕ :=
  (u :: l).getLast (List.cons_ne_nil _ _)

/-- `TotalCost g starts pen v t` states that `t` is
`initialWalkTime e + pen + (sum over the edges of p of (weight + 15))` for
some entry node `e` of `starts` and some path `p` from `e` to `v`. -/
def TotalCost {α : Type} [LinearOrderedField α] (g : TransitGraph α)
    (starts : List (StartNode α)) (pen : α) (v : ℕ) (t : α) : Prop :=
  ∃ s ∈ starts, ∃ l c, walkCost g s.id l = some c ∧ walkEnd s.id l = v ∧
    t = s.initialWalkTime + pen + c

/-- All node ids the propagation can ever mention: graph keys, neighbor
keys and entry ids. -/
def graphIds {α : Type} (g : TransitGraph α) (starts : List (StartNode α)) : Finset ℕ :=
  (g.nodes.keys).toFinset ∪
    (g.nodes.entries.flatMap (fun e => e.2.neighbors.keys)).toFinset ∪
    (starts.map StartNode.id).toFinset

/-- Number of admissible arrival values at `v` strictly below `t`: the
decreasing part of the termination measure. -/
noncomputable def belowCount {α : Type} [LinearOrderedField α] (g : TransitGraph α)
    (starts : List (StartNode α)) (pen : α) (v : ℕ) (t : α) : ℕ :=
  Set.ncard { c : α | TotalCost g starts pen v c ∧ c < t }

/-- Termination measure of the Dijkstra loop: fresh ids not yet in the map,
then the summed `belowCount` of the map bindings, then the queue length. -/
noncomputable def calcMeasure {α : Type} [LinearOrderedField α] (g : TransitGraph α)
    (starts : List (StartNode α)) (pen : α) (st : CalcState α) : ℕ × ℕ × ℕ :=
  ((graphIds g starts \ (st.times.keys).toFinset).card,
   (st.times.entries.map (fun e => belowCount g starts pen e.1 e.2)).sum,
   st.pq.size)

/-! ### TransitFetcher.loadStaticGraph (transit_engine.js lines 255-333) -/

/-- Raw node record of a static-graph dataset. -/
structure RawNodeRec where
  id : ℕ
  lat : ℝ
  lon : ℝ

/-- Raw edge record `{from, to, weight}` of a static-graph dataset. -/
structure RawEdgeRec where
  fromId : ℕ
  toId : ℕ
  weight : ℝ

/-- Static-graph dataset as fetched; `none` in a field models a document
whose `nodes`/`edges` member is missing or not an array, on which the
corresponding `forEach` call throws. -/
structure RawData where
  nodes : Option (List RawNodeRec)
  edges : Option (List RawEdgeRec)

/-- Failure cases of `TransitFetcher.loadStaticGraph`. -/
inductive LoadError
  | fetchFailed
  | badNodes
  | badEdges
deriving DecidableEq

/-- `TransitFetcher.loadStaticGraph` after the fetch/cache step: `fetched`
is `none` when the fetch or JSON parse threw (before any mutation of the
graph).  Returns the graph state at exit and the error thrown, if any. -/
def loadStaticGraph (g : TransitGraph ℝ) (fetched : Option RawData) (clear : Bool) :
    TransitGraph ℝ × Option LoadError :=
  match fetched with
  | none => (g, some .fetchFailed)
  | some data =>
    let g1 := if clear then { g with nodes := JsMap.empty, stations := [] } else g
    match data.nodes with
    | none => (g1, some .badNodes)
    | some ns =>
      let g2 := ns.foldl (fun gg n => gg.addNode n.id n.lat n.lon) g1
      match data.edges with
      | none => (g2, some .badEdges)
      | some es =>
        let g3 := es.foldl (fun gg e =>
          match gg.nodes.get e.fromId, gg.nodes.get e.toId with
          | some n1, some _ =>
            { gg with
              nodes := gg.nodes.set e.fromId
                ({ n1 with neighbors := n1.neighbors.set e.toId e.weight }) }
          | _, _ => gg) g2
        (g3, none)

/-! ### WalkingNetwork (transit_engine.js lines 606-865) -/

/-- Node of the walking network (neighbors as an array of `{id, time}`
pairs, in load order). -/
structure WNNode where
  id : ℕ
  lat : ℝ
  lon : ℝ
  neighbors : List (ℕ × ℝ)

/-- Entry stored in the walking network's spatial grid. -/
structure GridPt where
  id : ℕ
  lat : ℝ
  lon : ℝ

/-- State of a `WalkingNetwork` object. -/
structure WalkingNetwork where
  nodes : JsMap ℕ WNNode
  isLoaded : Bool
  enabled : Bool
  grid : JsMap (ℤ × ℤ) (List GridPt)
  gridCellSize : ℝ
  walkingTimes : JsMap ℕ ℝ
  currentOrigin : Option (ℝ × ℝ)

/-- Integer offsets `-r .. r` in increasing order. -/
def spanList (r : ℕ) : List ℤ :=
  (List.range (2 * r + 1)).map (fun i => (i : ℤ) - (r : ℤ))

/-- Offsets scanned for ring `radius` in `findNearestNode`: the full square
for radius 0, the hollow ring otherwise, in JS loop order (`dx` outer,
`dy` inner; interior cells skipped). -/
def ringOffsets (radius : ℕ) : List (ℤ × ℤ) :=
  (spanList radius).flatMap (fun dx =>
    (spanList radius).filterMap (fun dy =>
      if 0 < radius ∧ |dx| < (radius : ℤ) ∧ |dy| < (radius : ℤ) then none
      else some (dx, dy)))

/-- Scan one grid cell for a nearer node (`findNearestNode` inner loop). -/
noncomputable def scanCell (wn : WalkingNetwork) (lat lon : ℝ)
    (st : Option GridPt × ℝ) (cell : ℤ × ℤ) : Option GridPt × ℝ :=
  match wn.grid.get cell with
  | none => st
  | some cellNodes =>
    cellNodes.foldl (fun b n =>
      let dist := distHaversine lat lon n.lat n.lon
      if dist < b.2 then (some n, dist) else b) st

/-- `WalkingNetwork.findNearestNode`: expanding ring search over the grid up
to ring 5, stopping after the first ring that produced a node. -/
noncomputable def findNearestNode (wn : WalkingNetwork) (lat lon maxDist : ℝ) :
    Option (GridPt × ℝ) :=
  if wn.isLoaded = false then none
  else
    let key := gridKey wn.gridCellSize lat lon
    let final := [0, 1, 2, 3, 4, 5].foldl (fun s (radius : ℕ) =>
      if s.1.isSome then s
      else (ringOffsets radius).foldl
        (fun s2 d => scanCell wn lat lon s2 (key.1 + d.1, key.2 + d.2)) s)
      ((none : Option GridPt), maxDist)
    match final with
    | (some n, d) => some (n, d)
    | (none, _) => none

/-- State of the walking-network Dijkstra. -/
structure WalkState where
  walkingTimes : JsMap ℕ ℝ
  pq : BinaryHeap ℝ

/-- One neighbor relaxation of `computeFromOrigin`: no stop penalty, and
tentative times above the 3600 s ceiling are pruned. -/
noncomputable def walkRelaxStep (currTime : ℝ) (s : WalkState) (nb : ℕ × ℝ) : WalkState :=
  let newTime := currTime + nb.2
  if 3600 < newTime then s
  else
    match s.walkingTimes.get nb.1 with
    | none => ⟨s.walkingTimes.set nb.1 newTime, s.pq.push ⟨nb.1, newTime⟩⟩
    | some t =>
      if newTime < t then ⟨s.walkingTimes.set nb.1 newTime, s.pq.push ⟨nb.1, newTime⟩⟩
      else s

/-- The Dijkstra `while` loop of `computeFromOrigin`, one pop per fuel unit. -/
noncomputable def walkLoop (wn : WalkingNetwork) : ℕ → WalkState → Option (JsMap ℕ ℝ)
  | 0, st => if st.pq.size = 0 then some st.walkingTimes else none
  | fuel + 1, st =>
    if st.pq.size = 0 then some st.walkingTimes
    else
      match st.pq.pop with
      | (none, _) => some st.walkingTimes
      | (some e, pq') =>
        let st1 : WalkState := ⟨st.walkingTimes, pq'⟩
        match st1.walkingTimes.get e.id with
        | some t =>
          if t < e.time then walkLoop wn fuel st1
          else
            match wn.nodes.get e.id with
            | none => walkLoop wn fuel st1
            | some nd => walkLoop wn fuel (nd.neighbors.foldl (walkRelaxStep e.time) st1)
        | none =>
          match wn.nodes.get e.id with
          | none => walkLoop wn fuel st1
          | some nd => walkLoop wn fuel (nd.neighbors.foldl (walkRelaxStep e.time) st1)

/-- The recompute branch of `computeFromOrigin`: reset the cache, snap to the
nearest node within 1000 m, seed with the snap walk time and run Dijkstra. -/
noncomputable def computeFromOriginRun (wn : WalkingNetwork) (originLat originLon : ℝ)
    (fuel : ℕ) : Option WalkingNetwork :=
  let wn1 := { wn with
    walkingTimes := JsMap.empty,
    currentOrigin := some (originLat, originLon) }
  match findNearestNode wn1 originLat originLon 1000 with
  | none => some wn1
  | some (node, dist) =>
    let startTimeWalk := dist / 1.3
    let st0 : WalkState := ⟨(JsMap.empty : JsMap ℕ ℝ).set node.id startTimeWalk,
                            BinaryHeap.empty.push ⟨node.id, startTimeWalk⟩⟩
    match walkLoop wn1 fuel st0 with
    | some times => some { wn1 with walkingTimes := times }
    | none => none

/-- `WalkingNetwork.computeFromOrigin`: no-op when not loaded/enabled or when
the origin is within `0.0001` degrees of the stored one in each coordinate;
otherwise recompute (`none` only on fuel exhaustion). -/
noncomputable def computeFromOrigin (wn : WalkingNetwork) (originLat originLon : ℝ)
    (fuel : ℕ) : Option WalkingNetwork :=
  if wn.isLoaded = false ∨ wn.enabled = false then some wn
  else
    match wn.currentOrigin with
    | some o =>
      if |o.1 - originLat| < 0.0001 ∧ |o.2 - originLon| < 0.0001 then some wn
      else computeFromOriginRun wn originLat originLon fuel
    | none => computeFromOriginRun wn originLat originLon fuel

/-- `WalkingNetwork.getWalkingTime`: snap within 500 m to a node that has a
precomputed time and add the last-mile walk. -/
noncomputable def getWalkingTime (wn : WalkingNetwork) (lat lon : ℝ) : Option ℝ :=
  if wn.isLoaded = false ∨ wn.enabled = false then none
  else if wn.walkingTimes.size = 0 then none
  else
    match findNearestNode wn lat lon 500 with
    | none => none
    | some (node, dist) =>
      match wn.walkingTimes.get node.id with
      | none => none
      | some nodeTime => some (nodeTime + dist / 1.3)

/-! ### SpatialIndex (spatial-index module) -/

/-- The spatial index over stations. -/
structure SpatialIndex where
  cellSize : ℝ
  grid : JsMap (ℤ × ℤ) (List StationRec)
  stations : List StationRec

/-- `new SpatialIndex(cellSizeMeters)`. -/
def SpatialIndex.create (cellSizeMeters : ℝ) : SpatialIndex :=
  ⟨cellSizeMeters, JsMap.empty, []⟩

/-- `SpatialIndex.add`. -/
noncomputable def SpatialIndex.add (s : SpatialIndex) (station : StationRec) :
    SpatialIndex :=
  let key := gridKey s.cellSize station.lat station.lon
  let grid' :=
    match s.grid.get key with
    | none => s.grid.set key [station]
    | some cell => s.grid.set key (cell ++ [station])
  { s with grid := grid', stations := s.stations ++ [station] }

/-- `SpatialIndex.addAll`. -/
noncomputable def SpatialIndex.addAll (s : SpatialIndex) (stations : List StationRec) :
    SpatialIndex :=
  stations.foldl SpatialIndex.add s

/-- Integer range `a .. b` inclusive, in increasing order. -/
def rangeClosed (a b : ℤ) : List ℤ :=
  (List.range (b - a + 1).toNat).map (fun (i : ℕ) => a + (i : ℤ))

/-- `SpatialIndex.query`: gather every entry of every cell within
`⌈radius / cellSize⌉ + 1` cells of the center cell in each direction
(`dy` outer, `dx` inner). -/
noncomputable def SpatialIndex.query (s : SpatialIndex) (lat lon radiusMeters : ℝ) :
    List StationRec :=
  let cellsToCheck : ℤ := ⌈radiusMeters / s.cellSize⌉ + 1
  let center := gridKey s.cellSize lat lon
  (rangeClosed (-cellsToCheck) cellsToCheck).foldl (fun acc dy =>
    (rangeClosed (-cellsToCheck) cellsToCheck).foldl (fun acc2 dx =>
      match s.grid.get (center.1 + dx, center.2 + dy) with
      | some cellStations => acc2 ++ cellStations
      | none => acc2) acc) []

/-! ### Render data (core-worker protocol) -/

/-- Station with arrival time handed to the renderers. -/
structure ActiveStation where
  lat : ℝ
  lon : ℝ
  time : ℝ

/-- Viewport bounding box. -/
structure RenderBounds where
  north : ℝ
  south : ℝ
  east : ℝ
  west : ℝ

/-- Pre-sampled walking-time grid handed to the worker (row-major, `-1`
encodes "no data"). -/
structure WalkingGrid where
  data : List ℝ
  size : ℕ
  bounds : RenderBounds

/-- Render request parameters (the worker message payload). -/
structure RenderParams where
  width : ℕ
  height : ℕ
  pixelSize : ℕ
  opacity : ℝ
  maxTime : ℝ
  origin : ℝ × ℝ
  bounds : RenderBounds
  activeStations : List ActiveStation
  obstacleData : Option (List ℤ)
  walkingGrid : Option WalkingGrid
  walkSpeedMps : ℝ
  isPreview : Bool

/-- `getWalkingTimeFromGrid` of `render-worker.js`: clamped cell lookup in
the pre-sampled grid; negative values mean "no data". -/
noncomputable def getWalkingTimeFromGrid (lat lng : ℝ) (wg : WalkingGrid) : Option ℝ :=
  let bounds := wg.bounds
  let latRange := bounds.north - bounds.south
  let lngRange := bounds.east - bounds.west
  if lat < bounds.south ∨ bounds.north < lat ∨ lng < bounds.west ∨ bounds.east < lng then
    none
  else
    let row := (lat - bounds.south) / latRange * wg.size
    let col := (lng - bounds.west) / lngRange * wg.size
    let r := min (max ⌊row⌋ 0) ((wg.size : ℤ) - 1)
    let c := min (max ⌊col⌋ 0) ((wg.size : ℤ) - 1)
    match wg.data.get? (r * wg.size + c).toNat with
    | some time => if 0 ≤ time then some time else none
    | none => none

/-- Grid of `WorkerSpatialIndex` built in its constructor (same key formula
as `SpatialIndex`). -/
noncomputable def workerIndexGrid (stations : List ActiveStation) (cellSize : ℝ) :
    JsMap (ℤ × ℤ) (List ActiveStation) :=
  stations.foldl (fun gr s =>
    let key := gridKey cellSize s.lat s.lon
    match gr.get key with
    | none => gr.set key [s]
    | some cell => gr.set key (cell ++ [s])) JsMap.empty

/-- `WorkerSpatialIndex.query` (same cell range as `SpatialIndex.query`). -/
noncomputable def workerIndexQuery (grid : JsMap (ℤ × ℤ) (List ActiveStation))
    (cellSize lat lon radiusMeters : ℝ) : List ActiveStation :=
  let cellsToCheck : ℤ := ⌈radiusMeters / cellSize⌉ + 1
  let center := gridKey cellSize lat lon
  (rangeClosed (-cellsToCheck) cellsToCheck).foldl (fun acc dy =>
    (rangeClosed (-cellsToCheck) cellsToCheck).foldl (fun acc2 dx =>
      match grid.get (center.1 + dx, center.2 + dy) with
      | some cellStations => acc2 ++ cellStations
      | none => acc2) acc) []

/-- Obstacle test of the renderers: the alpha byte of the pixel under
`(x, y)` exceeds 100.  Textually identical in `render-worker.js` and
`IsochoneCanvasLayer._renderMainThread`. -/
noncomputable def isObstacle (obstacleData : Option (List ℤ)) (width height : ℕ)
    (x y : ℝ) : Bool :=
  match obstacleData with
  | none => false
  | some data =>
    if x < 0 ∨ (width : ℝ) ≤ x ∨ y < 0 ∨ (height : ℝ) ≤ y then false
    else
      let idx := 4 * (⌊y⌋ * (width : ℤ) + ⌊x⌋)
      match data.get? (idx.toNat + 3) with
      | some a => decide (100 < a)
      | none => false

/-- Line-of-sight test of the renderers: sample the segment every 8 pixel
units and reject if any sample is an obstacle.  Textually identical in
`render-worker.js` and `_renderMainThread`. -/
noncomputable def isPathSafe (obstacleData : Option (List ℤ)) (width height : ℕ)
    (x1 y1 x2 y2 : ℝ) : Bool :=
  match obstacleData with
  | none => true
  | some _ =>
    let dx := x2 - x1
    let dy := y2 - y1
    let dist := Real.sqrt (dx * dx + dy * dy)
    let steps := max (⌊dist / 8⌋.toNat) 1
    (List.range (steps + 1)).all (fun i =>
      !(isObstacle obstacleData width height (x1 + dx * ((i : ℝ) / (steps : ℝ)))
        (y1 + dy * ((i : ℝ) / (steps : ℝ)))))

/-- Clamp of a `Uint8ClampedArray` write. -/
def clampByte (z : ℤ) : ℤ := max 0 (min 255 z)

/-- Write one RGBA pixel (out-of-bounds writes are dropped, as on a typed
array). -/
def writePixel (buf : Array ℤ) (idx : ℕ) (c : ℤ × ℤ × ℤ × ℤ) : Array ℤ :=
  (((buf.setD idx (clampByte c.1)).setD (idx + 1) (clampByte c.2.1)).setD (idx + 2)
    (clampByte c.2.2.1)).setD (idx + 3) (clampByte c.2.2.2)

/-- Fill a `pixelSize × pixelSize` block (`py` outer, `px` inner), clipped to
the canvas.  Identical loop in both renderers. -/
def fillBlock (buf : Array ℤ) (width height pixelSize x y : ℕ)
    (color : ℤ × ℤ × ℤ × ℤ) : Array ℤ :=
  (List.range pixelSize).foldl (fun b py =>
    (List.range pixelSize).foldl (fun b2 px =>
      if y + py < height ∧ x + px < width then
        writePixel b2 (4 * ((y + py) * width + (x + px))) color
      else b2) b) buf

/-- Pixel-block origins `0, step, 2·step, …` below `limit` (the
`for (v = 0; v < limit; v += step)` loops). -/
def stepIndices (limit step : ℕ) : List ℕ :=
  (List.range ((limit + step - 1) / step)).map (fun i => i * step)

/-- Minimum of two extended times (`none` = `Infinity`). -/
def minOpt (a b : Option ℝ) : Option ℝ :=
  match a, b with
  | some x, some y => some (min x y)
  | some x, none => some x
  | none, some y => some y
  | none, none => none

/-- Color of a pixel whose combined time is `t` (`none` = `Infinity`, which
`getColor` maps to transparent). -/
noncomputable def colorOfTime (t : Option ℝ) (opacity maxTime : ℝ) : ℤ × ℤ × ℤ × ℤ :=
  match t with
  | none => (0, 0, 0, 0)
  | some sec => getColor (sec / 60) opacity maxTime

/-- The worker's `render` function (`render-worker.js` lines 99-235):
per-pixel minimum of grid/straight-line walking time and
spatial-index-filtered transit time, painted in blocks. -/
noncomputable def render (params : RenderParams) : Array ℤ :=
  let width := params.width
  let height := params.height
  let pixelSize := params.pixelSize
  let data0 : Array ℤ := Array.mkArray (width * height * 4) 0
  let stationGrid := workerIndexGrid params.activeStations 300
  let north := params.bounds.north
  let west := params.bounds.west
  let latRange := params.bounds.south - north
  let lngRange := params.bounds.east - west
  let originY := (params.origin.1 - north) / latRange * (height : ℝ)
  let originX := (params.origin.2 - west) / lngRange * (width : ℝ)
  (stepIndices height pixelSize).foldl (fun dataY (y : ℕ) =>
    let lat := north + ((y : ℝ) + (pixelSize : ℝ) / 2) / (height : ℝ) * latRange
    (stepIndices width pixelSize).foldl (fun dataX (x : ℕ) =>
      let lng := west + ((x : ℝ) + (pixelSize : ℝ) / 2) / (width : ℝ) * lngRange
      let targetX := (x : ℝ) + (pixelSize : ℝ) / 2
      let targetY := (y : ℝ) + (pixelSize : ℝ) / 2
      let fromGrid : Option ℝ :=
        match params.walkingGrid with
        | some wg => getWalkingTimeFromGrid lat lng wg
        | none => none
      let timeWalkDirect : Option ℝ :=
        match fromGrid with
        | some t => some t
        | none =>
          let pathIsSafe :=
            match params.walkingGrid with
            | some _ => isPathSafe params.obstacleData width height originX originY
                targetX targetY
            | none => true
          if pathIsSafe then
            some (distHaversine params.origin.1 params.origin.2 lat lng /
              params.walkSpeedMps)
          else none
      let nearbyStations := workerIndexQuery stationGrid 300 lat lng 2000
      let timeTransit : Option ℝ := nearbyStations.foldl (fun best s =>
        if 0.03 < |s.lat - lat| + |s.lon - lng| then best
        else
          let distExit := distHaversine lat lng s.lat s.lon
          let exitWalkTime := distExit / params.walkSpeedMps * 1.4
          let total := s.time + exitWalkTime
          let consider :=
            match best with
            | some b => decide (total < b)
            | none => true
          if consider then
            let stationY := (s.lat - north) / latRange * (height : ℝ)
            let stationX := (s.lon - west) / lngRange * (width : ℝ)
            if isPathSafe params.obstacleData width height stationX stationY
                targetX targetY then
              some total
            else best
          else best) none
      let totalTimeSec := minOpt timeWalkDirect timeTransit
      let color := colorOfTime totalTimeSec params.opacity params.maxTime
      fillBlock dataX width height pixelSize x y color) dataY) data0

/-- Station pre-filter shared verbatim by `_renderWithWorker` and
`_renderMainThread`: stations of the times map whose node lies within 0.1
degrees of the viewport. -/
noncomputable def prefilterStations (networkTimes : JsMap ℕ ℝ) (g : TransitGraph ℝ)
    (bounds : RenderBounds) : List ActiveStation :=
  if networkTimes.size = 0 then []
  else networkTimes.entries.foldl (fun acc e =>
    match g.nodes.get e.1 with
    | none => acc
    | some node =>
      if node.lat < bounds.north + 0.1 ∧ bounds.south - 0.1 < node.lat ∧
          bounds.west - 0.1 < node.lon ∧ node.lon < bounds.east + 0.1 then
        acc ++ [⟨node.lat, node.lon, e.2⟩]
      else acc) []

/-- `IsochoneCanvasLayer._renderMainThread` (canvas-layer.js lines 456-616):
the synchronous fallback rasterizer.  `proj` is the Leaflet
`latLngToContainerPoint` projection of the attached map. -/
noncomputable def renderMainThread (networkTimes : JsMap ℕ ℝ) (graph : TransitGraph ℝ)
    (walkingNetwork : Option WalkingNetwork) (obstacleData : List ℤ)
    (proj : ℝ × ℝ → ℝ × ℝ) (origin : ℝ × ℝ) (bounds : RenderBounds)
    (width height pixelSize : ℕ) (opacity maxTime walkSpeedMps : ℝ) : Array ℤ :=
  let data0 : Array ℤ := Array.mkArray (width * height * 4) 0
  let north := bounds.north
  let west := bounds.west
  let latRange := bounds.south - north
  let lngRange := bounds.east - west
  let activeStations := prefilterStations networkTimes graph bounds
  let cellSize : ℝ := 0.01
  let gridIndex : JsMap (ℤ × ℤ) (List ActiveStation) :=
    activeStations.foldl (fun gr s =>
      let key := (⌊s.lat / cellSize⌋, ⌊s.lon / cellSize⌋)
      match gr.get key with
      | none => gr.set key [s]
      | some cell => gr.set key (cell ++ [s])) JsMap.empty
  let originPt := proj origin
  let hasWN : Bool :=
    match walkingNetwork with
    | some wn => wn.isLoaded && wn.enabled
    | none => false
  (stepIndices height pixelSize).foldl (fun dataY (y : ℕ) =>
    let lat := north + ((y : ℝ) + (pixelSize : ℝ) / 2) / (height : ℝ) * latRange
    (stepIndices width pixelSize).foldl (fun dataX (x : ℕ) =>
      let lng := west + ((x : ℝ) + (pixelSize : ℝ) / 2) / (width : ℝ) * lngRange
      let targetPt : ℝ × ℝ := ((x : ℝ) + (pixelSize : ℝ) / 2, (y : ℝ) + (pixelSize : ℝ) / 2)
      let networkTime : Option ℝ :=
        match walkingNetwork with
        | some wn => if wn.isLoaded && wn.enabled then getWalkingTime wn lat lng else none
        | none => none
      let timeWalkDirect : Option ℝ :=
        match networkTime with
        | some t => some t
        | none =>
          let pathIsSafe :=
            if hasWN then
              isPathSafe (some obstacleData) width height originPt.1 originPt.2
                targetPt.1 targetPt.2
            else true
          if pathIsSafe then
            some (distHaversine origin.1 origin.2 lat lng / walkSpeedMps)
          else none
      let nearby : List ActiveStation :=
        (rangeClosed (-3) 3).foldl (fun acc dy =>
          (rangeClosed (-3) 3).foldl (fun acc2 dx =>
            match gridIndex.get (⌊lat / cellSize⌋ + dy, ⌊lng / cellSize⌋ + dx) with
            | some cell => acc2 ++ cell
            | none => acc2) acc) []
      let timeTransit : Option ℝ := nearby.foldl (fun best s =>
        if |s.lat - lat| + |s.lon - lng| < 0.03 then
          let distExit := distHaversine lat lng s.lat s.lon
          let total := s.time + distExit / walkSpeedMps * 1.4
          let consider :=
            match best with
            | some b => decide (total < b)
            | none => true
          if consider then
            let stationPt := proj (s.lat, s.lon)
            if isPathSafe (some obstacleData) width height stationPt.1 stationPt.2
                targetPt.1 targetPt.2 then
              some total
            else best
          else best
        else best) none
      let totalTimeSec := minOpt timeWalkDirect timeTransit
      let color := colorOfTime totalTimeSec opacity maxTime
      fillBlock dataX width height pixelSize x y color) dataY) data0

/-! ### Canvas layer render scheduling (canvas-layer.js lines 76-104, 290-344) -/

/-- Scheduling state of `IsochoneCanvasLayer`; `curParams` abstracts the
request parameters current at each moment, and `canvas` records which
request's result the canvas displays. -/
structure LayerState where
  isRendering : Bool
  pendingRender : Bool
  pendingFullQuality : Bool
  immediateRender : Bool
  isPreviewPass : Bool
  lastRenderTime : ℕ
  dataReady : Bool
  curParams : ℕ
  inFlight : Option ℕ
  canvas : Option ℕ
deriving DecidableEq

/-- `_executeRender`/`_renderWithWorker` with the worker available: mark
rendering and hand the current parameters to the worker. -/
def dispatchRender (s : LayerState) : LayerState :=
  { s with isRendering := true, inFlight := some s.curParams }

/-- `IsochoneCanvasLayer.redraw(immediate)` at time `now`. -/
def redraw (s : LayerState) (now : ℕ) (immediate : Bool) : LayerState :=
  if s.dataReady = false then s
  else if immediate = false ∧ s.isRendering = true then { s with pendingRender := true }
  else if immediate = false ∧ now - s.lastRenderTime < 500 then s
  else
    let s1 := { s with lastRenderTime := now }
    if s1.isRendering then { s1 with pendingRender := true, pendingFullQuality := true }
    else if immediate = true ∨ s1.immediateRender = true then
      dispatchRender { s1 with immediateRender := false, isPreviewPass := false }
    else dispatchRender { s1 with isPreviewPass := false }

/-- `_handleWorkerMessage` on a `complete` message at time `now`: apply the
finished job's result to the canvas, then serve a pending request. -/
def handleWorkerComplete (s : LayerState) (now : ℕ) : LayerState :=
  let s1 := { s with isRendering := false, canvas := s.inFlight }
  if s1.pendingRender then redraw { s1 with pendingRender := false } now false
  else s1

/-- External events of the layer: a render request (parameter update plus
`redraw`) and worker completion. -/
inductive LayerEvent
  | request (p : ℕ) (now : ℕ) (immediate : Bool)
  | complete (now : ℕ)

/-- One event transition of the layer. -/
def layerStep (s : LayerState) : LayerEvent → LayerState
  | .request p now immediate => redraw { s with curParams := p } now immediate
  | .complete now => handleWorkerComplete s now

/-- Run of the layer over an event trace. -/
def layerRun (s : LayerState) (evs : List LayerEvent) : LayerState :=
  evs.foldl layerStep s

/-- RGB values of the six color bands of `getColor`, low to high. -/
def colorBands : List (ℤ × ℤ × ℤ) :=
  [(59, 130, 246), (6, 182, 212), (16, 185, 129), (132, 204, 22),
   (250, 204, 21), (249, 115, 22)]

/-- Invariant of claim C10: the station list carries exactly one entry per
node id, with the node's coordinates. -/
def stationsInv {α : Type} (g : TransitGraph α) : Prop :=
  (g.stations.map StationRec.id).Nodup ∧
  (∀ st ∈ g.stations, ∃ n, g.nodes.get st.id = some n ∧ n.lat = st.lat ∧ n.lon = st.lon) ∧
  (∀ k : ℕ, (g.nodes.get k).isSome = true → ∃ st ∈ g.stations, st.id = k)

/-- Min-heap shape invariant of the `BinaryHeap` content array: every entry
is at least its parent. -/
def HeapInv {α : Type} [LinearOrder α] (c : List (HeapElem α)) : Prop :=
  ∀ i : ℕ, 0 < i → ∀ x y, c.get? i = some x → c.get? ((i - 1) / 2) = some y →
    y.time ≤ x.time

/-- Heap shape up to one upward defect at `n`: all parent edges hold except
possibly the one into `n`, and `n`'s children already dominate `n`'s parent. -/
def AlmostHeapUp {α : Type} [LinearOrder α] (c : List (HeapElem α)) (n : ℕ) : Prop :=
  (∀ i : ℕ, 0 < i → i ≠ n → ∀ x y, c.get? i = some x →
    c.get? ((i - 1) / 2) = some y → y.time ≤ x.time) ∧
  (0 < n → ∀ j : ℕ, (j = 2 * n + 1 ∨ j = 2 * n + 2) → ∀ x y, c.get? j = some x →
    c.get? ((n - 1) / 2) = some y → y.time ≤ x.time)

/-- Heap shape up to one downward defect at `n`: all parent edges hold except
possibly the two out of `n`, and `n`'s children already dominate `n`'s parent. -/
def AlmostHeapDown {α : Type} [LinearOrder α] (c : List (HeapElem α)) (n : ℕ) : Prop :=
  (∀ i : ℕ, 0 < i → i ≠ 2 * n + 1 → i ≠ 2 * n + 2 → ∀ x y, c.get? i = some x →
    c.get? ((i - 1) / 2) = some y → y.time ≤ x.time) ∧
  (0 < n → ∀ j : ℕ, (j = 2 * n + 1 ∨ j = 2 * n + 2) → ∀ x y, c.get? j = some x →
    c.get? ((n - 1) / 2) = some y → y.time ≤ x.time)

/-- Push a whole list, in order. -/
def BinaryHeap.pushAll {α : Type} [LinearOrder α] (h : BinaryHeap α)
    (l : List (HeapElem α)) : BinaryHeap α :=
  l.foldl BinaryHeap.push h

/-- Successive pops (at most `fuel` of them, stopping on the empty heap). -/
def popAllAux {α : Type} [LinearOrder α] : ℕ → List (HeapElem α) → List (HeapElem α)
  | 0, _ => []
  | fuel + 1, c =>
    match heapPopList c with
    | (none, _) => []
    | (some e, c') => e :: popAllAux fuel c'

/-- All elements of the heap, popped one by one. -/
def BinaryHeap.popAll {α : Type} [LinearOrder α] (h : BinaryHeap α) :
    List (HeapElem α) :=
  popAllAux h.content.length h.content

/-- A tiny loaded-and-enabled walking network with an empty spatial grid, one
cached walking time and a stored origin, exercising the origin cache. -/
noncomputable def wn9 : WalkingNetwork :=
  ⟨JsMap.empty, true, true, JsMap.empty, 500, (JsMap.empty : JsMap ℕ ℝ).set 42 10,
    some (0, 0)⟩

/-- The intermediate `a` of the haversine formula (shared by all four copies
of `distHaversine` in the sources). -/
noncomputable def haverA (lat1 lon1 lat2 lon2 : ℝ) : ℝ :=
  let dLat := (lat2 - lat1) * Real.pi / 180
  let dLon := (lon2 - lon1) * Real.pi / 180
  Real.sin (dLat / 2) * Real.sin (dLat / 2) +
    Real.cos (lat1 * Real.pi / 180) * Real.cos (lat2 * Real.pi / 180) *
      (Real.sin (dLon / 2) * Real.sin (dLon / 2))

/-- A station 450 m due north of latitude 80 deg at longitude 178 deg (the
latitude offset is chosen so the great-circle distance is exactly 450 m). -/
noncomputable def st3 : StationRec :=
  ⟨9, 80 + 450 * 180 / (6371000 * Real.pi), 178⟩

/-- A spatial index with 100 m cells holding only `st3`. -/
noncomputable def idx3 : SpatialIndex := (SpatialIndex.create 100).add st3

/-- Latitude 150 m due north of 80 deg (offset chosen so the great-circle
distance from latitude 80 at equal longitude is exactly 150 m). -/
noncomputable def lat6 : ℝ := 80 + 150 * 180 / (6371000 * Real.pi)

/-- Two stop-nodes 150 m apart near 80°N, 179°E, no edges. -/
noncomputable def tg6 : TransitGraph ℝ :=
  ((TransitGraph.emptyGraph : TransitGraph ℝ).addNode 1 80 179).addNode 2 lat6 179

/-! ## Theorems -/

/-! ### JsMap lemmas -/

theorem JsMap.getList_setList_self {K V : Type} [DecidableEq K]
    (l : List (K × V)) (k : K) (v : V) : JsMap.getList (JsMap.setList l k v) k = some v := by
  induction l with
  | nil => simp [JsMap.setList, JsMap.getList]
  | cons e rest ih =>
    by_cases h : e.1 = k
    · simp [JsMap.setList, JsMap.getList, h]
    · simp [JsMap.setList, JsMap.getList, h, ih]

theorem JsMap.getList_setList_ne {K V : Type} [DecidableEq K]
    (l : List (K × V)) (k k' : K) (v : V) (hk : k ≠ k') :
    JsMap.getList (JsMap.setList l k v) k' = JsMap.getList l k' := by
  induction l with
  | nil => simp [JsMap.setList, JsMap.getList, hk]
  | cons e rest ih =>
    by_cases h : e.1 = k
    · simp [JsMap.setList, JsMap.getList, h, hk]
    · simp [JsMap.setList, JsMap.getList, h, ih]

@[simp] theorem JsMap.get_empty {K V : Type} [DecidableEq K] (k : K) :
    (JsMap.empty : JsMap K V).get k = none := rfl

@[simp] theorem JsMap.get_set_self {K V : Type} [DecidableEq K]
    (m : JsMap K V) (k : K) (v : V) : (m.set k v).get k = some v :=
  JsMap.getList_setList_self m.entries k v

theorem JsMap.get_set_ne {K V : Type} [DecidableEq K]
    (m : JsMap K V) (k k' : K) (v : V) (hk : k ≠ k') :
    (m.set k v).get k' = m.get k' :=
  JsMap.getList_setList_ne m.entries k k' v hk

theorem JsMap.get_set {K V : Type} [DecidableEq K]
    (m : JsMap K V) (k k' : K) (v : V) :
    (m.set k v).get k' = if k = k' then some v else m.get k' := by
  by_cases h : k = k'
  · subst h; simp
  · simp [h, JsMap.get_set_ne m k k' v h]

theorem JsMap.keys_setList {K V : Type} [DecidableEq K]
    (l : List (K × V)) (k : K) (v : V) :
    (JsMap.setList l k v).map Prod.fst =
      if (JsMap.getList l k).isNone then l.map Prod.fst ++ [k] else l.map Prod.fst := by
  induction l with
  | nil => simp [JsMap.setList, JsMap.getList]
  | cons e rest ih =>
    by_cases h : e.1 = k
    · simp [JsMap.setList, JsMap.getList, h]
    · simp only [JsMap.setList, JsMap.getList, if_neg h, List.map_cons, ih]
      by_cases h2 : (JsMap.getList rest k).isNone <;> simp [h2]

/-! ### C8: getColor bands -/

/-- Claim C8: for every minutes value, opacity and maxTime: at or beyond
`maxTime` the color is fully transparent `(0,0,0,0)`; otherwise the color is
one of six fixed colors with alpha `⌊opacity·255⌋`, selected by which of the
six equal-width intervals of `[0, maxTime)` contains `minutes`; in
particular `minutes = 0` falls in the first (blue) band. -/
theorem C8_getColor_bands :
    (∀ minutes opacity maxTime : ℝ, maxTime ≤ minutes →
      getColor minutes opacity maxTime = (0, 0, 0, 0)) ∧
    (∀ minutes opacity maxTime : ℝ, ∀ i : ℕ, i < 6 → 0 < maxTime →
      (i : ℝ) * (maxTime / 6) ≤ minutes → minutes < ((i : ℝ) + 1) * (maxTime / 6) →
      ∃ rgb, colorBands.get? i = some rgb ∧
        getColor minutes opacity maxTime = (rgb.1, rgb.2.1, rgb.2.2, ⌊opacity * 255⌋)) ∧
    (∀ opacity maxTime : ℝ, 0 < maxTime →
      getColor 0 opacity maxTime = (59, 130, 246, ⌊opacity * 255⌋)) := by
  refine ⟨?_, ?_, ?_⟩
  · intro m o M h
    simp [getColor, h]
  · intro m o M i hi hM hlo hhi
    have hM6 : 0 < M / 6 := by linarith
    interval_cases i
    · refine ⟨(59, 130, 246), rfl, ?_⟩
      norm_num at hlo hhi
      simp only [getColor]
      rw [if_neg (by linarith), if_pos (by linarith)]
    · refine ⟨(6, 182, 212), rfl, ?_⟩
      norm_num at hlo hhi
      simp only [getColor]
      rw [if_neg (by linarith), if_neg (by linarith), if_pos (by linarith)]
    · refine ⟨(16, 185, 129), rfl, ?_⟩
      norm_num at hlo hhi
      simp only [getColor]
      rw [if_neg (by linarith), if_neg (by linarith), if_neg (by linarith),
        if_pos (by linarith)]
    · refine ⟨(132, 204, 22), rfl, ?_⟩
      norm_num at hlo hhi
      simp only [getColor]
      rw [if_neg (by linarith), if_neg (by linarith), if_neg (by linarith),
        if_neg (by linarith), if_pos (by linarith)]
    · refine ⟨(250, 204, 21), rfl, ?_⟩
      norm_num at hlo hhi
      simp only [getColor]
      rw [if_neg (by linarith), if_neg (by linarith), if_neg (by linarith),
        if_neg (by linarith), if_neg (by linarith), if_pos (by linarith)]
    · refine ⟨(249, 115, 22), rfl, ?_⟩
      norm_num at hlo hhi
      simp only [getColor]
      rw [if_neg (by linarith), if_neg (by linarith), if_neg (by linarith),
        if_neg (by linarith), if_neg (by linarith), if_neg (by linarith)]
  · intro o M hM
    simp only [getColor]
    rw [if_neg (by linarith), if_pos (by positivity)]

/-! ### C2: render scheduling -/

/-- Counterexample to claim C2: from an idle ready layer, request 1 is
dispatched, request 2 arrives while it is in flight (and is recorded as
pending), and when the worker completes, the superseded result of request 1
is applied to the canvas even though request 2 is known to be outstanding
(`curParams = 2`); moreover the pending re-render is dropped by the
minimum-interval throttle, so the stale result remains displayed. -/
theorem C2_counterexample :
    (layerRun ⟨false, false, false, false, false, 0, true, 0, none, none⟩
      [.request 1 1000 true, .request 2 1100 false, .complete 1200]).canvas = some 1 ∧
    (layerRun ⟨false, false, false, false, false, 0, true, 0, none, none⟩
      [.request 1 1000 true, .request 2 1100 false, .complete 1200]).curParams = 2 ∧
    (layerRun ⟨false, false, false, false, false, 0, true, 0, none, none⟩
      [.request 1 1000 true, .request 2 1100 false, .complete 1200]).isRendering = false ∧
    (1 : ℕ) ≠ 2 := by
  decide

/-- Claim C2 as amended: when a completion arrives while a newer request is
pending, the superseded in-flight result IS applied to the canvas; the layer
then clears the pending flag and immediately re-renders with the latest
request parameters, dispatching a new worker job whenever the
minimum-interval throttle (500 ms since the last render start) allows; the
completion of that job displays the latest parameters' result. -/
theorem C2_amended_pending_redispatch (s : LayerState) (now : ℕ)
    (hready : s.dataReady = true) (_hrend : s.isRendering = true)
    (hpend : s.pendingRender = true) :
    (handleWorkerComplete s now).canvas = s.inFlight ∧
    (handleWorkerComplete s now).pendingRender = false ∧
    (500 ≤ now - s.lastRenderTime →
      (handleWorkerComplete s now).isRendering = true ∧
      (handleWorkerComplete s now).inFlight = some s.curParams ∧
      ∀ now2 : ℕ, (handleWorkerComplete (handleWorkerComplete s now) now2).canvas =
        some s.curParams) := by
  have hth : (now - s.lastRenderTime < 500) ∨ 500 ≤ now - s.lastRenderTime :=
    lt_or_ge _ _
  rcases hth with hth | hth
  · refine ⟨?_, ?_, ?_⟩ <;>
      simp [handleWorkerComplete, redraw, hready, hpend, hth,
        dispatchRender]
  · have hth' : ¬(now - s.lastRenderTime < 500) := not_lt.mpr hth
    by_cases him : s.immediateRender = true <;>
      simp [handleWorkerComplete, redraw, hready, hpend, hth',
        dispatchRender, him]

/-- Witness for `C2_amended_pending_redispatch` at a concrete state. -/
theorem C2_amended_pending_redispatch_witness :
    (handleWorkerComplete ⟨true, true, false, false, false, 0, true, 7, some 3, none⟩
      900).canvas = some 3 ∧
    (handleWorkerComplete ⟨true, true, false, false, false, 0, true, 7, some 3, none⟩
      900).pendingRender = false ∧
    (500 ≤ 900 - (0 : ℕ) →
      (handleWorkerComplete ⟨true, true, false, false, false, 0, true, 7, some 3, none⟩
        900).isRendering = true ∧
      (handleWorkerComplete ⟨true, true, false, false, false, 0, true, 7, some 3, none⟩
        900).inFlight = some 7 ∧
      ∀ now2 : ℕ,
        (handleWorkerComplete
          (handleWorkerComplete ⟨true, true, false, false, false, 0, true, 7, some 3, none⟩
            900) now2).canvas = some 7) :=
  C2_amended_pending_redispatch
    ⟨true, true, false, false, false, 0, true, 7, some 3, none⟩ 900 rfl rfl rfl

/-! ### C10: station/node invariant -/

theorem foldl_preserves {σ β : Type} (P : σ → Prop) (f : σ → β → σ)
    (h : ∀ s b, P s → P (f s b)) :
    ∀ (l : List β) (s : σ), P s → P (l.foldl f s) := by
  intro l
  induction l with
  | nil => intro s hs; exact hs
  | cons b rest ih => intro s hs; exact ih (f s b) (h s b hs)

/-- Coordinate map of a node entry. -/
theorem stationsInv_of_coords {α β : Type} (g : TransitGraph α) (g' : TransitGraph β)
    (hst : g'.stations = g.stations)
    (hco : ∀ k, (g'.nodes.get k).map (fun n => (n.lat, n.lon)) =
      (g.nodes.get k).map (fun n => (n.lat, n.lon)))
    (h : stationsInv g) : stationsInv g' := by
  obtain ⟨h1, h2, h3⟩ := h
  refine ⟨by rw [hst]; exact h1, ?_, ?_⟩
  · intro st hmem
    rw [hst] at hmem
    obtain ⟨n, hn, hlat, hlon⟩ := h2 st hmem
    have hco1 := hco st.id
    rw [hn] at hco1
    cases hg : g'.nodes.get st.id with
    | none => rw [hg] at hco1; simp at hco1
    | some m =>
      rw [hg] at hco1
      simp only [Option.map_some', Option.some.injEq, Prod.mk.injEq] at hco1
      exact ⟨m, rfl, hco1.1.trans hlat, hco1.2.trans hlon⟩
  · intro k hk
    rw [hst]
    apply h3
    have hco1 := hco k
    cases hg : g'.nodes.get k with
    | none => rw [hg] at hk; simp at hk
    | some m =>
      rw [hg] at hco1
      cases hg2 : g.nodes.get k with
      | none => rw [hg2] at hco1; simp at hco1
      | some m2 => simp [hg2]

theorem coords_set_neighbors (m : JsMap ℕ (TGNode ℝ)) (i : ℕ) (cur : TGNode ℝ)
    (nb : JsMap ℕ ℝ) (hcur : m.get i = some cur) :
    ∀ k, ((m.set i { cur with neighbors := nb }).get k).map (fun n => (n.lat, n.lon)) =
      (m.get k).map (fun n => (n.lat, n.lon)) := by
  intro k
  rw [JsMap.get_set]
  by_cases h : i = k
  · subst h; simp [hcur]
  · simp [h]

theorem transferUpdate_coords (thr : ℝ) (n1 : TGNode ℝ) (g0 : JsMap ℕ (TGNode ℝ)) :
    ∀ (acc : JsMap ℕ (TGNode ℝ)) (n2 : TGNode ℝ),
      (∀ k, (acc.get k).map (fun n => (n.lat, n.lon)) =
        (g0.get k).map (fun n => (n.lat, n.lon))) →
      (∀ k, ((TransitGraph.transferUpdate thr n1 acc n2).get k).map (fun n => (n.lat, n.lon)) =
        (g0.get k).map (fun n => (n.lat, n.lon))) := by
  intro acc n2 hP k
  unfold TransitGraph.transferUpdate
  by_cases hid : n1.id = n2.id
  · simp only [if_pos hid]; exact hP k
  · simp only [if_neg hid]
    by_cases hd : distHaversine n1.lat n1.lon n2.lat n2.lon ≤ thr
    · simp only [if_pos hd]
      cases hcur : acc.get n1.id with
      | none => simp only [hcur]; exact hP k
      | some cur =>
        simp only [hcur]
        cases hnb : cur.neighbors.get n2.id with
        | none =>
          simp only [hnb]
          rw [coords_set_neighbors acc n1.id cur _ hcur k]
          exact hP k
        | some told =>
          simp only [hnb]
          by_cases ht : distHaversine n1.lat n1.lon n2.lat n2.lon / 1.3 < told
          · simp only [if_pos ht]
            rw [coords_set_neighbors acc n1.id cur _ hcur k]
            exact hP k
          · simp only [if_neg ht]; exact hP k
    · simp only [if_neg hd]; exact hP k

theorem transferScanNode_coords (grid : JsMap (ℤ × ℤ) (List (TGNode ℝ)))
    (thr cs : ℝ) (g0 : JsMap ℕ (TGNode ℝ)) :
    ∀ (acc : JsMap ℕ (TGNode ℝ)) (n1 : TGNode ℝ),
      (∀ k, (acc.get k).map (fun n => (n.lat, n.lon)) =
        (g0.get k).map (fun n => (n.lat, n.lon))) →
      (∀ k, ((TransitGraph.transferScanNode grid thr cs acc n1).get k).map
          (fun n => (n.lat, n.lon)) =
        (g0.get k).map (fun n => (n.lat, n.lon))) := by
  intro acc n1 hP
  unfold TransitGraph.transferScanNode
  refine foldl_preserves
    (fun (m : JsMap ℕ (TGNode ℝ)) => ∀ k, (m.get k).map (fun n => (n.lat, n.lon)) =
      (g0.get k).map (fun n => (n.lat, n.lon))) _ ?_ _ _ hP
  intro s d hs
  unfold TransitGraph.transferCell
  cases hcell : grid.get ((gridKey cs n1.lat n1.lon).1 + d.1,
      (gridKey cs n1.lat n1.lon).2 + d.2) with
  | none => simpa only [hcell] using hs
  | some cellNodes =>
    simp only [hcell]
    exact foldl_preserves _ _ (fun s2 b h2 => transferUpdate_coords thr n1 g0 s2 b h2)
      cellNodes s hs

theorem generateTransferEdges_coords (g : TransitGraph ℝ) (thr : ℝ) :
    ∀ k, ((g.generateTransferEdges thr).nodes.get k).map (fun n => (n.lat, n.lon)) =
      (g.nodes.get k).map (fun n => (n.lat, n.lon)) := by
  unfold TransitGraph.generateTransferEdges
  exact foldl_preserves
    (fun m => ∀ k, (m.get k).map (fun n => (n.lat, n.lon)) =
      (g.nodes.get k).map (fun n => (n.lat, n.lon)))
    _ (fun s b hs => transferScanNode_coords _ thr thr g.nodes s b hs) _ _ (fun k => rfl)

theorem generateTransferEdges_stations (g : TransitGraph ℝ) (thr : ℝ) :
    (g.generateTransferEdges thr).stations = g.stations := rfl

theorem addEdge_stations (g : TransitGraph ℝ) (id1 id2 : ℕ) (speed : ℝ) :
    (g.addEdge id1 id2 speed).stations = g.stations := by
  unfold TransitGraph.addEdge
  split
  · rfl
  · rfl

theorem addEdge_coords (g : TransitGraph ℝ) (id1 id2 : ℕ) (speed : ℝ) :
    ∀ k, ((g.addEdge id1 id2 speed).nodes.get k).map (fun n => (n.lat, n.lon)) =
      (g.nodes.get k).map (fun n => (n.lat, n.lon)) := by
  intro k
  unfold TransitGraph.addEdge
  cases h1 : g.nodes.get id1 with
  | none => simp only [h1]
  | some n1 =>
    cases h2 : g.nodes.get id2 with
    | none => simp only [h1, h2]
    | some n2 =>
      simp only [h1, h2]
      have hmid := coords_set_neighbors g.nodes id1 n1 (n1.neighbors.set id2 (distHaversine n1.lat n1.lon n2.lat n2.lon / speed)) h1
      cases hm2 : (g.nodes.set id1 { n1 with neighbors := n1.neighbors.set id2 (distHaversine n1.lat n1.lon n2.lat n2.lon / speed) }).get id2 with
      | none => simp only [hm2]; exact hmid k
      | some m2 =>
        simp only [hm2]
        rw [coords_set_neighbors _ id2 m2 (m2.neighbors.set id1 (distHaversine n1.lat n1.lon n2.lat n2.lon / speed)) hm2 k]
        exact hmid k

/-- Claim C10: every TransitGraph operation preserves the invariant that the
stations array contains exactly one entry per id in the nodes map, with the
node's coordinates: `addNode` inserts into both or neither, `clear` empties
both, and `addEdge`/`generateTransferEdges` change neither the station list
nor the node set (presence and coordinates of every id). -/
theorem C10_stations_nodes_invariant :
    (∀ (α : Type) (g : TransitGraph α) (id : ℕ) (lat lon : ℝ),
      stationsInv g → stationsInv (g.addNode id lat lon)) ∧
    (∀ (α : Type) (g : TransitGraph α),
      stationsInv (TransitGraph.clear g) ∧
      (TransitGraph.clear g).nodes = JsMap.empty ∧
      (TransitGraph.clear g).stations = []) ∧
    (∀ (g : TransitGraph ℝ) (id1 id2 : ℕ) (speed : ℝ),
      (g.addEdge id1 id2 speed).stations = g.stations ∧
      (∀ k, ((g.addEdge id1 id2 speed).nodes.get k).map (fun n => (n.lat, n.lon)) =
        (g.nodes.get k).map (fun n => (n.lat, n.lon))) ∧
      (stationsInv g → stationsInv (g.addEdge id1 id2 speed))) ∧
    (∀ (g : TransitGraph ℝ) (thr : ℝ),
      (g.generateTransferEdges thr).stations = g.stations ∧
      (∀ k, ((g.generateTransferEdges thr).nodes.get k).map (fun n => (n.lat, n.lon)) =
        (g.nodes.get k).map (fun n => (n.lat, n.lon))) ∧
      (stationsInv g → stationsInv (g.generateTransferEdges thr))) := by
  refine ⟨?_, ?_, ?_, ?_⟩
  · intro α g id lat lon h
    by_cases hhas : g.nodes.has id
    · simpa [TransitGraph.addNode, hhas] using h
    · obtain ⟨h1, h2, h3⟩ := h
      have hnone : g.nodes.get id = none := by
        unfold JsMap.has at hhas
        cases hg : g.nodes.get id with
        | none => rfl
        | some n => rw [hg] at hhas; simp at hhas
      have hidfresh : ∀ st ∈ g.stations, st.id ≠ id := by
        intro st hst he
        obtain ⟨n, hn, _, _⟩ := h2 st hst
        rw [he, hnone] at hn
        exact Option.noConfusion hn
      simp only [TransitGraph.addNode, hhas, Bool.false_eq_true, if_false]
      refine ⟨?_, ?_, ?_⟩
      · rw [List.map_append]
        simp only [List.map_cons, List.map_nil]
        rw [List.nodup_append]
        refine ⟨h1, List.nodup_singleton _, ?_⟩
        intro a ha hb
        simp only [List.mem_singleton] at hb
        subst hb
        obtain ⟨st, hst, hstid⟩ := List.mem_map.mp ha
        exact hidfresh st hst hstid
      · intro st hst
        rcases List.mem_append.mp hst with hst | hst
        · obtain ⟨n, hn, hla, hlo⟩ := h2 st hst
          refine ⟨n, ?_, hla, hlo⟩
          rw [JsMap.get_set_ne _ _ _ _ (fun he => hidfresh st hst he.symm)]
          exact hn
        · simp only [List.mem_singleton] at hst
          subst hst
          exact ⟨_, JsMap.get_set_self _ _ _, rfl, rfl⟩
      · intro k hk
        by_cases hkid : id = k
        · subst hkid
          exact ⟨⟨id, lat, lon⟩, List.mem_append.mpr (Or.inr (List.mem_singleton.mpr rfl)), rfl⟩
        · rw [JsMap.get_set_ne _ _ _ _ hkid] at hk
          obtain ⟨st, hst, he⟩ := h3 k hk
          exact ⟨st, List.mem_append.mpr (Or.inl hst), he⟩
  · intro α g
    refine ⟨⟨List.nodup_nil, ?_, ?_⟩, rfl, rfl⟩
    · intro st hst; simp [TransitGraph.clear] at hst
    · intro k hk; simp [TransitGraph.clear, JsMap.get, JsMap.getList, JsMap.empty] at hk
  · intro g id1 id2 speed
    refine ⟨addEdge_stations g id1 id2 speed, addEdge_coords g id1 id2 speed, ?_⟩
    intro h
    exact stationsInv_of_coords g _ (addEdge_stations g id1 id2 speed)
      (addEdge_coords g id1 id2 speed) h
  · intro g thr
    refine ⟨rfl, generateTransferEdges_coords g thr, ?_⟩
    intro h
    exact stationsInv_of_coords g _ rfl (generateTransferEdges_coords g thr) h

/-! ### C5: loadStaticGraph atomicity -/

/-- Counterexample to claim C5: loading a dataset whose `edges` member is
missing onto a graph holding node 7 throws after the clearing and node
phases, leaving a graph that is neither the original (node 7 is gone) nor
fully updated (the load failed): the load is not atomic. -/
theorem C5_counterexample :
    (loadStaticGraph ((TransitGraph.emptyGraph : TransitGraph ℝ).addNode 7 1 2)
      (some ⟨some [⟨8, 3, 4⟩], none⟩) true).2 = some .badEdges ∧
    (loadStaticGraph ((TransitGraph.emptyGraph : TransitGraph ℝ).addNode 7 1 2)
      (some ⟨some [⟨8, 3, 4⟩], none⟩) true).1.nodes.get 7 = none ∧
    (((TransitGraph.emptyGraph : TransitGraph ℝ).addNode 7 1 2).nodes.get 7).isSome
      = true := by
  refine ⟨rfl, rfl, rfl⟩

/-- Claim C5 as amended: a failure before any dataset is obtained (fetch or
JSON parse) leaves the graph exactly as it was; a malformed dataset that
fails midway (here: a missing `edges` array) leaves the graph partially
updated, cleared with only the node list loaded, so atomicity holds only for
fetch-stage failures; a well-formed dataset loads without error. -/
theorem C5_amended_load_atomicity :
    (∀ (g : TransitGraph ℝ) (clear : Bool),
      loadStaticGraph g none clear = (g, some .fetchFailed)) ∧
    (∀ (g : TransitGraph ℝ) (ns : List RawNodeRec),
      (loadStaticGraph g (some ⟨some ns, none⟩) true).2 = some .badEdges ∧
      (loadStaticGraph g (some ⟨some ns, none⟩) true).1 =
        ns.foldl (fun gg n => gg.addNode n.id n.lat n.lon)
          { g with nodes := JsMap.empty, stations := [] }) ∧
    (∀ (g : TransitGraph ℝ) (data : RawData) (ns : List RawNodeRec)
        (es : List RawEdgeRec), data.nodes = some ns → data.edges = some es →
      (loadStaticGraph g (some data) true).2 = none) := by
  refine ⟨fun g clear => rfl, fun g ns => ⟨rfl, rfl⟩, ?_⟩
  intro g data ns es hn he
  cases data
  simp only at hn he
  subst hn
  subst he
  rfl

/-! ### BinaryHeap: permutation lemmas -/

theorem cons_set_perm {β : Type} :
    ∀ (c : List β) (i : ℕ) (v x : β), c.get? i = some x →
      (x :: c.set i v).Perm (v :: c) := by
  intro c
  induction c with
  | nil => intro i v x h; simp at h
  | cons a t ih =>
    intro i v x h
    cases i with
    | zero =>
      simp only [List.get?] at h
      cases h
      exact List.Perm.swap v a t
    | succ i =>
      simp only [List.get?] at h
      have h1 : (x :: (a :: t).set (i + 1) v) = x :: a :: t.set i v := rfl
      rw [h1]
      exact ((List.Perm.swap a x _).trans ((ih i v x h).cons a)).trans
        (List.Perm.swap v a t)

theorem set_set_swap_perm {β : Type} (c : List β) (i j : ℕ) (x y : β)
    (hij : i ≠ j) (hi : c.get? i = some x) (hj : c.get? j = some y) :
    ((c.set i y).set j x).Perm c := by
  have hj' : (c.set i y).get? j = some y := by
    rw [List.get?_set_ne y c hij]; exact hj
  have p1 : (y :: (c.set i y).set j x).Perm (x :: c.set i y) :=
    cons_set_perm (c.set i y) j x y hj'
  have p2 : (x :: c.set i y).Perm (y :: c) := cons_set_perm c i y x hi
  exact List.Perm.cons_inv (p1.trans p2)

theorem bubbleUpAux_perm {α : Type} [LinearOrder α] :
    ∀ (fuel : ℕ) (c : List (HeapElem α)) (n : ℕ),
      (bubbleUpAux fuel c n).Perm c := by
  intro fuel
  induction fuel with
  | zero => intro c n; exact List.Perm.refl c
  | succ fuel ih =>
    intro c n
    unfold bubbleUpAux
    by_cases hn : n = 0
    · simp only [hn, if_pos rfl]; exact List.Perm.refl c
    · simp only [if_neg hn]
      cases he : c.get? n with
      | none => exact List.Perm.refl c
      | some element =>
        cases hp : c.get? ((n + 1) / 2 - 1) with
        | none => exact List.Perm.refl c
        | some parent =>
          by_cases hle : parent.time ≤ element.time
          · simp only [if_pos hle]; exact List.Perm.refl c
          · simp only [if_neg hle]
            have hne : (n + 1) / 2 - 1 ≠ n := by omega
            exact (ih _ _).trans (set_set_swap_perm c _ n parent element hne hp he)

theorem sinkDownAux_perm {α : Type} [LinearOrder α] :
    ∀ (fuel : ℕ) (c : List (HeapElem α)) (n : ℕ),
      (sinkDownAux fuel c n).Perm c := by
  intro fuel
  induction fuel with
  | zero => intro c n; exact List.Perm.refl c
  | succ fuel ih =>
    intro c n
    unfold sinkDownAux
    dsimp only
    cases he : c.get? n with
    | none => exact List.Perm.refl c
    | some element =>
      cases h1 : c.get? ((n + 1) * 2 - 1) with
      | none => exact List.Perm.refl c
      | some child1 =>
        cases h2 : c.get? ((n + 1) * 2) with
        | none =>
          by_cases hc1 : child1.time < element.time
          · simp only [if_pos hc1]
            have hne : n ≠ (n + 1) * 2 - 1 := by omega
            exact (ih _ _).trans (set_set_swap_perm c n _ element child1 hne he h1)
          · simp only [if_neg hc1]; exact List.Perm.refl c
        | some child2 =>
          by_cases hc2 : child2.time <
              (if child1.time < element.time then child1.time else element.time)
          · simp only [if_pos hc2]
            have hne : n ≠ (n + 1) * 2 := by omega
            exact (ih _ _).trans (set_set_swap_perm c n _ element child2 hne he h2)
          · simp only [if_neg hc2]
            by_cases hc1 : child1.time < element.time
            · simp only [if_pos hc1]
              have hne : n ≠ (n + 1) * 2 - 1 := by omega
              exact (ih _ _).trans (set_set_swap_perm c n _ element child1 hne he h1)
            · simp only [if_neg hc1]; exact List.Perm.refl c

theorem heapPushList_perm {α : Type} [LinearOrder α] (c : List (HeapElem α))
    (e : HeapElem α) : (heapPushList c e).Perm (e :: c) := by
  unfold heapPushList
  exact (bubbleUpAux_perm _ _ _).trans (List.perm_append_singleton e c)

theorem heapPopList_none {α : Type} [LinearOrder α] (c : List (HeapElem α)) :
    (heapPopList c).1 = none ↔ c = [] := by
  cases c with
  | nil => simp [heapPopList]
  | cons first rest =>
    cases rest with
    | nil => simp [heapPopList]
    | cons b t => simp [heapPopList]

theorem heapPopList_perm {α : Type} [LinearOrder α] (c : List (HeapElem α))
    (e : HeapElem α) (c' : List (HeapElem α)) (h : heapPopList c = (some e, c')) :
    c.Perm (e :: c') := by
  cases c with
  | nil => simp [heapPopList] at h
  | cons first rest =>
    cases rest with
    | nil =>
      simp only [heapPopList] at h
      injection h with h1 h2
      injection h1 with h1
      subst h1; subst h2
      exact List.Perm.refl _
    | cons b t =>
      simp only [heapPopList] at h
      injection h with h1 h2
      injection h1 with h1
      subst h1
      subst h2
      refine List.Perm.cons first ?_
      refine List.Perm.trans ?_ (sinkDownAux_perm _ _ _).symm
      have hd : (first :: b :: t).dropLast = first :: (b :: t).dropLast := by
        simp [List.dropLast]
      rw [hd]
      have hset : (first :: (b :: t).dropLast).set 0
            ((first :: b :: t).getLast (List.cons_ne_nil _ _)) =
          (first :: b :: t).getLast (List.cons_ne_nil _ _) :: (b :: t).dropLast := rfl
      rw [hset]
      have hlast : (first :: b :: t).getLast (List.cons_ne_nil _ _) =
          (b :: t).getLast (List.cons_ne_nil _ _) :=
        List.getLast_cons (List.cons_ne_nil _ _)
      rw [hlast]
      have hperm := List.perm_append_singleton
        ((b :: t).getLast (List.cons_ne_nil _ _)) ((b :: t).dropLast)
      have hsplit : (b :: t).dropLast ++ [(b :: t).getLast (List.cons_ne_nil _ _)] =
          b :: t := List.dropLast_append_getLast (List.cons_ne_nil _ _)
      rw [hsplit] at hperm
      exact hperm

/-! ### BinaryHeap: heap order -/

theorem get?_set_set {β : Type} (c : List β) (i j : ℕ) (vi vj : β) (hij : i ≠ j)
    (hi : i < c.length) (k : ℕ) :
    ((c.set i vi).set j vj).get? k =
      if k = j then (if j < c.length then some vj else none)
      else if k = i then some vi else c.get? k := by
  by_cases hkj : k = j
  · subst hkj
    by_cases hjl : k < c.length
    · rw [if_pos rfl, if_pos hjl]
      exact List.get?_set_eq_of_lt vj (by simpa using hjl)
    · rw [if_pos rfl, if_neg hjl]
      refine List.get?_eq_none.mpr ?_
      simpa using Nat.le_of_not_lt hjl
  · rw [if_neg hkj, List.get?_set_ne vj _ (fun h => hkj h.symm)]
    by_cases hki : k = i
    · subst hki
      rw [if_pos rfl]
      exact List.get?_set_eq_of_lt vi hi
    · rw [if_neg hki, List.get?_set_ne vi _ (fun h => hki h.symm)]

theorem bubbleUpAux_heapInv {α : Type} [LinearOrder α] :
    ∀ (fuel : ℕ) (c : List (HeapElem α)) (n : ℕ), AlmostHeapUp c n → n ≤ fuel →
      HeapInv (bubbleUpAux fuel c n) := by
  intro fuel
  induction fuel with
  | zero =>
    intro c n hAU hn
    have hn0 : n = 0 := Nat.le_zero.mp hn
    subst hn0
    intro i hi x y hx hy
    exact hAU.1 i hi (Nat.pos_iff_ne_zero.mp hi) x y hx hy
  | succ fuel ih =>
    intro c n hAU hn
    unfold bubbleUpAux
    by_cases hn0 : n = 0
    · subst hn0
      simp only [if_pos rfl]
      intro i hi x y hx hy
      exact hAU.1 i hi (Nat.pos_iff_ne_zero.mp hi) x y hx hy
    · simp only [if_neg hn0]
      have hpos : 0 < n := Nat.pos_of_ne_zero hn0
      cases he : c.get? n with
      | none =>
        intro i hi x y hx hy
        by_cases hin : i = n
        · subst hin; rw [he] at hx; exact absurd hx (by simp)
        · exact hAU.1 i hi hin x y hx hy
      | some element =>
        cases hp : c.get? ((n + 1) / 2 - 1) with
        | none =>
          intro i hi x y hx hy
          by_cases hin : i = n
          · subst hin
            have hpf : (i + 1) / 2 - 1 = (i - 1) / 2 := by omega
            rw [hpf] at hp
            rw [hp] at hy
            exact absurd hy (by simp)
          · exact hAU.1 i hi hin x y hx hy
        | some parent =>
          by_cases hle : parent.time ≤ element.time
          · simp only [if_pos hle]
            intro i hi x y hx hy
            by_cases hin : i = n
            · subst hin
              rw [he] at hx
              injection hx with hx
              have hpf : (i + 1) / 2 - 1 = (i - 1) / 2 := by omega
              rw [hpf] at hp
              rw [hp] at hy
              injection hy with hy
              rw [← hx, ← hy]
              exact hle
            · exact hAU.1 i hi hin x y hx hy
          · simp only [if_neg hle]
            have hnl : n < c.length := (List.get?_eq_some.mp he).1
            have hpl : (n + 1) / 2 - 1 < c.length := (List.get?_eq_some.mp hp).1
            have hpn : (n + 1) / 2 - 1 ≠ n := by omega
            have helt : element.time < parent.time := lt_of_not_le hle
            have hget : ∀ k, ((c.set ((n + 1) / 2 - 1) element).set n parent).get? k =
                if k = n then some parent
                else if k = (n + 1) / 2 - 1 then some element else c.get? k := by
              intro k
              rw [get?_set_set c _ n element parent hpn hpl k]
              by_cases hkn : k = n
              · simp [hkn, hnl]
              · simp [hkn]
            apply ih _ _ ?_ (by omega)
            constructor
            · intro i hi hip x y hx hy
              rw [hget] at hx hy
              by_cases hin : i = n
              · subst hin
                rw [if_pos rfl] at hx
                injection hx with hx
                have hpf : (i - 1) / 2 = (i + 1) / 2 - 1 := by omega
                rw [hpf] at hy
                rw [if_neg hpn, if_pos rfl] at hy
                injection hy with hy
                rw [← hx, ← hy]
                exact le_of_lt helt
              · rw [if_neg hin, if_neg hip] at hx
                by_cases hqn : (i - 1) / 2 = n
                · rw [hqn, if_pos rfl] at hy
                  injection hy with hy
                  have hchild : i = 2 * n + 1 ∨ i = 2 * n + 2 := by omega
                  have hpf : (n + 1) / 2 - 1 = (n - 1) / 2 := by omega
                  rw [hpf] at hp
                  rw [← hy]
                  exact hAU.2 hpos i hchild x parent hx hp
                · rw [if_neg hqn] at hy
                  by_cases hqp : (i - 1) / 2 = (n + 1) / 2 - 1
                  · rw [hqp, if_pos rfl] at hy
                    injection hy with hy
                    have hx2 := hAU.1 i hi hin x parent hx (by rw [hqp]; exact hp)
                    rw [← hy]
                    exact le_trans (le_of_lt helt) hx2
                  · rw [if_neg hqp] at hy
                    exact hAU.1 i hi hin x y hx hy
            · intro hppos j hj x y hx hy
              rw [hget] at hx hy
              have hppn : ((n + 1) / 2 - 1 - 1) / 2 ≠ n := by omega
              have hppp : ((n + 1) / 2 - 1 - 1) / 2 ≠ (n + 1) / 2 - 1 := by omega
              rw [if_neg hppn, if_neg hppp] at hy
              have hyle : y.time ≤ parent.time := by
                exact hAU.1 _ hppos hpn parent y hp hy
              by_cases hjn : j = n
              · subst hjn
                rw [if_pos rfl] at hx
                injection hx with hx
                rw [← hx]
                exact hyle
              · have hjp : j ≠ (n + 1) / 2 - 1 := by omega
                rw [if_neg hjn, if_neg hjp] at hx
                have hjpos : 0 < j := by omega
                have hjq : (j - 1) / 2 = (n + 1) / 2 - 1 := by omega
                have hx2 := hAU.1 j hjpos hjn x parent hx (by rw [hjq]; exact hp)
                exact le_trans hyle hx2

theorem heapPushList_heapInv {α : Type} [LinearOrder α] (c : List (HeapElem α))
    (e : HeapElem α) (h : HeapInv c) : HeapInv (heapPushList c e) := by
  unfold heapPushList
  apply bubbleUpAux_heapInv c.length (c ++ [e]) c.length ?_ le_rfl
  constructor
  · intro i hi hin x y hx hy
    have hil : i < c.length + 1 := by
      have := (List.get?_eq_some.mp hx).1
      simpa using this
    have hilt : i < c.length := by omega
    have hx' : c.get? i = some x := by
      rw [List.get?_append hilt] at hx
      exact hx
    have hy' : c.get? ((i - 1) / 2) = some y := by
      have hpl : (i - 1) / 2 < c.length := by omega
      rw [List.get?_append hpl] at hy
      exact hy
    exact h i hi x y hx' hy'
  · intro hpos j hj x y hx hy
    have hjl : j < c.length + 1 := by
      have := (List.get?_eq_some.mp hx).1
      simpa using this
    omega

theorem sinkDownAux_heapInv {α : Type} [LinearOrder α] :
    ∀ (fuel : ℕ) (c : List (HeapElem α)) (n : ℕ), AlmostHeapDown c n →
      c.length ≤ fuel + n → HeapInv (sinkDownAux fuel c n) := by
  have key : ∀ (c : List (HeapElem α)) (n : ℕ), AlmostHeapDown c n →
      c.length ≤ 2 * n + 1 → HeapInv c := by
    intro c n hAD hlen i hi x y hx hy
    have hil : i < c.length := (List.get?_eq_some.mp hx).1
    exact hAD.1 i hi (by omega) (by omega) x y hx hy
  intro fuel
  induction fuel with
  | zero =>
    intro c n hAD hlen
    exact key c n hAD (by omega)
  | succ fuel ih =>
    intro c n hAD hlen
    unfold sinkDownAux
    dsimp only
    cases he : c.get? n with
    | none =>
      have hnl : c.length ≤ n := by
        by_contra hcon
        rw [List.get?_eq_get (Nat.lt_of_not_le hcon)] at he
        exact Option.noConfusion he
      exact key c n hAD (by omega)
    | some element =>
      cases h1 : c.get? ((n + 1) * 2 - 1) with
      | none =>
        have h1l : c.length ≤ (n + 1) * 2 - 1 := by
          by_contra hcon
          rw [List.get?_eq_get (Nat.lt_of_not_le hcon)] at h1
          exact Option.noConfusion h1
        exact key c n hAD (by omega)
      | some child1 =>
        have hnl : n < c.length := (List.get?_eq_some.mp he).1
        have h1l : (n + 1) * 2 - 1 < c.length := (List.get?_eq_some.mp h1).1
        cases h2 : c.get? ((n + 1) * 2) with
        | none =>
          have h2l : c.length ≤ (n + 1) * 2 := by
            by_contra hcon
            rw [List.get?_eq_get (Nat.lt_of_not_le hcon)] at h2
            exact Option.noConfusion h2
          by_cases hc1 : child1.time < element.time
          · simp only [if_pos hc1]
            apply ih _ _ ?_ (by simp only [List.length_set]; omega)
            constructor
            · intro i hi hi1 hi2 x y hx hy
              rw [get?_set_set c n _ child1 element (by omega) hnl] at hx hy
              rw [if_neg (by omega : ¬((i - 1) / 2 = (n + 1) * 2 - 1))] at hy
              by_cases hin : i = n
              · subst hin
                rw [if_neg (by omega), if_pos rfl] at hx
                injection hx with hx
                by_cases hq : (i - 1) / 2 = i
                · have hi0 : i = 0 := by omega
                  omega
                · rw [if_neg hq] at hy
                  have hipos : 0 < i := hi
                  have := hAD.2 hipos ((i + 1) * 2 - 1) (by omega) child1 y h1 hy
                  rw [← hx]
                  exact this
              · by_cases hie : i = (n + 1) * 2 - 1
                · rw [if_pos hie, if_pos h1l] at hx
                  injection hx with hx
                  rw [if_pos (show (i - 1) / 2 = n by omega)] at hy
                  injection hy with hy
                  rw [← hx, ← hy]
                  exact le_of_lt hc1
                · rw [if_neg hie, if_neg hin] at hx
                  by_cases hqn : (i - 1) / 2 = n
                  · have hcase : i = (n + 1) * 2 - 1 ∨ i = (n + 1) * 2 := by omega
                    rcases hcase with hcase | hcase
                    · exact absurd hcase hie
                    · have hnone : c.get? i = none := by
                        rw [hcase]
                        exact List.get?_eq_none.mpr h2l
                      rw [hnone] at hx
                      exact Option.noConfusion hx
                  · rw [if_neg hqn] at hy
                    exact hAD.1 i hi (by omega) (by omega) x y hx hy
            · intro hpos j hj x y hx hy
              rw [get?_set_set c n _ child1 element (by omega) hnl] at hx hy
              have hjn2 : ((n + 1) * 2 - 1 - 1) / 2 = n := by omega
              rw [hjn2, if_neg (by omega), if_pos rfl] at hy
              injection hy with hy
              have hjne : j ≠ (n + 1) * 2 - 1 := by omega
              have hjnn : j ≠ n := by omega
              rw [if_neg hjne, if_neg hjnn] at hx
              have hx2 := hAD.1 j (by omega) (by omega) (by omega) x child1 hx
                (by rw [(by omega : (j - 1) / 2 = (n + 1) * 2 - 1)]; exact h1)
              rw [← hy]
              exact hx2
          · simp only [if_neg hc1]
            intro i hi x y hx hy
            by_cases hq : (i - 1) / 2 = n
            · have hcase : i = (n + 1) * 2 - 1 ∨ i = (n + 1) * 2 := by omega
              rcases hcase with hcase | hcase
              · subst hcase
                rw [h1] at hx
                injection hx with hx
                rw [hq, he] at hy
                injection hy with hy
                rw [← hx, ← hy]
                exact le_of_not_lt hc1
              · subst hcase
                rw [h2] at hx
                exact Option.noConfusion hx
            · exact hAD.1 i hi (by omega) (by omega) x y hx hy
        | some child2 =>
          have h2l : (n + 1) * 2 < c.length := (List.get?_eq_some.mp h2).1
          have swapcase : ∀ (s : ℕ) (cs : HeapElem α),
              (s = (n + 1) * 2 - 1 ∨ s = (n + 1) * 2) → c.get? s = some cs →
              cs.time < element.time → cs.time ≤ child1.time → cs.time ≤ child2.time →
              AlmostHeapDown ((c.set n cs).set s element) s := by
            intro s cs hs hcs hlt hm1 hm2
            have hsl : s < c.length := by
              rcases hs with hs | hs <;> omega
            have hsn : n ≠ s := by omega
            constructor
            · intro i hi hi1 hi2 x y hx hy
              rw [get?_set_set c n s cs element hsn hnl] at hx hy
              rw [if_neg (by omega : ¬((i - 1) / 2 = s))] at hy
              by_cases hin : i = n
              · subst hin
                rw [if_neg (by omega), if_pos rfl] at hx
                injection hx with hx
                by_cases hq : (i - 1) / 2 = i
                · omega
                · rw [if_neg hq] at hy
                  have hyc := hAD.2 hi s (by omega) cs y hcs hy
                  rw [← hx]
                  exact hyc
              · by_cases hie : i = s
                · rw [if_pos hie, if_pos hsl] at hx
                  injection hx with hx
                  rw [if_pos (show (i - 1) / 2 = n by omega)] at hy
                  injection hy with hy
                  rw [← hx, ← hy]
                  exact le_of_lt hlt
                · rw [if_neg hie, if_neg hin] at hx
                  by_cases hqn : (i - 1) / 2 = n
                  · rw [if_pos hqn] at hy
                    injection hy with hy
                    have hcase : i = (n + 1) * 2 - 1 ∨ i = (n + 1) * 2 := by omega
                    rw [← hy]
                    rcases hcase with hcase | hcase
                    · rw [hcase, h1] at hx
                      injection hx with hx
                      rw [← hx]
                      exact hm1
                    · rw [hcase, h2] at hx
                      injection hx with hx
                      rw [← hx]
                      exact hm2
                  · rw [if_neg hqn] at hy
                    exact hAD.1 i hi (by omega) (by omega) x y hx hy
            · intro hpos j hj x y hx hy
              rw [get?_set_set c n s cs element hsn hnl] at hx hy
              have hjn2 : (s - 1) / 2 = n := by omega
              rw [hjn2, if_neg (by omega), if_pos rfl] at hy
              injection hy with hy
              have hjne : j ≠ s := by omega
              have hjnn : j ≠ n := by omega
              rw [if_neg hjne, if_neg hjnn] at hx
              have hx2 := hAD.1 j (by omega) (by omega) (by omega) x cs hx
                (by rw [(by omega : (j - 1) / 2 = s)]; exact hcs)
              rw [← hy]
              exact hx2
          by_cases hc2 : child2.time <
              (if child1.time < element.time then child1.time else element.time)
          · simp only [if_pos hc2]
            have hlt2 : child2.time < element.time := by
              by_cases hc1 : child1.time < element.time
              · rw [if_pos hc1] at hc2; exact lt_trans hc2 hc1
              · rw [if_neg hc1] at hc2; exact hc2
            have hm1 : child2.time ≤ child1.time := by
              by_cases hc1 : child1.time < element.time
              · rw [if_pos hc1] at hc2; exact le_of_lt hc2
              · rw [if_neg hc1] at hc2
                exact le_trans (le_of_lt hc2) (le_of_not_lt hc1)
            exact ih _ _ (swapcase ((n + 1) * 2) child2 (Or.inr rfl) h2 hlt2 hm1 le_rfl)
              (by simp only [List.length_set]; omega)
          · simp only [if_neg hc2]
            by_cases hc1 : child1.time < element.time
            · simp only [if_pos hc1]
              have hm2 : child1.time ≤ child2.time := by
                rw [if_pos hc1] at hc2
                exact le_of_not_lt hc2
              exact ih _ _ (swapcase ((n + 1) * 2 - 1) child1 (Or.inl rfl) h1 hc1 le_rfl hm2)
                (by simp only [List.length_set]; omega)
            · simp only [if_neg hc1]
              intro i hi x y hx hy
              by_cases hq : (i - 1) / 2 = n
              · have hcase : i = (n + 1) * 2 - 1 ∨ i = (n + 1) * 2 := by omega
                rw [hq, he] at hy
                injection hy with hy
                rcases hcase with hcase | hcase
                · subst hcase
                  rw [h1] at hx
                  injection hx with hx
                  rw [← hx, ← hy]
                  exact le_of_not_lt hc1
                · subst hcase
                  rw [h2] at hx
                  injection hx with hx
                  rw [← hx, ← hy]
                  rw [if_neg hc1] at hc2
                  exact le_of_not_lt hc2
              · exact hAD.1 i hi (by omega) (by omega) x y hx hy

theorem heapInv_root_le {α : Type} [LinearOrder α] (c : List (HeapElem α))
    (h : HeapInv c) (r : HeapElem α) (hr : c.get? 0 = some r) :
    ∀ i x, c.get? i = some x → r.time ≤ x.time := by
  intro i
  induction i using Nat.strong_induction_on with
  | _ i ih =>
    intro x hx
    cases i with
    | zero =>
      rw [hr] at hx
      injection hx with hx
      rw [hx]
    | succ m =>
      have hil : m + 1 < c.length := (List.get?_eq_some.mp hx).1
      have hpl : (m + 1 - 1) / 2 < c.length := by omega
      have hy := List.get?_eq_get hpl
      exact le_trans (ih ((m + 1 - 1) / 2) (by omega) _ hy)
        (h (m + 1) (by omega) x _ hx hy)

theorem heapPopList_min {α : Type} [LinearOrder α] (c : List (HeapElem α))
    (h : HeapInv c) (e : HeapElem α) (c' : List (HeapElem α))
    (hpop : heapPopList c = (some e, c')) :
    ∀ x ∈ c', e.time ≤ x.time := by
  intro x hx
  have hx' : x ∈ c :=
    (heapPopList_perm c e c' hpop).symm.subset (List.mem_cons_of_mem e hx)
  obtain ⟨i, hi⟩ := List.get?_of_mem hx'
  have hroot : c.get? 0 = some e := by
    cases c with
    | nil => simp [heapPopList] at hpop
    | cons first rest =>
      cases rest with
      | nil =>
        simp only [heapPopList] at hpop
        injection hpop with h1 h2
      | cons b t =>
        simp only [heapPopList] at hpop
        injection hpop with h1 h2
  exact heapInv_root_le c h e hroot i x hi

theorem get?_dropLast {β : Type} (l : List β) (i : ℕ) (h : i + 1 < l.length) :
    l.dropLast.get? i = l.get? i := by
  rw [List.dropLast_eq_take, List.get?_eq_getElem?, List.get?_eq_getElem?,
    List.getElem?_take_of_lt (by omega)]

theorem heapPopList_heapInv {α : Type} [LinearOrder α] (c : List (HeapElem α))
    (h : HeapInv c) : HeapInv (heapPopList c).2 := by
  cases c with
  | nil =>
    intro i hi x y hx hy
    simp [heapPopList] at hx
  | cons first rest =>
    cases rest with
    | nil =>
      intro i hi x y hx hy
      simp [heapPopList] at hx
    | cons b t =>
      have hres : (heapPopList (first :: b :: t)).2 =
          sinkDownAux ((first :: b :: t).dropLast).length
            (((first :: b :: t).dropLast).set 0
              ((first :: b :: t).getLast (List.cons_ne_nil _ _))) 0 := rfl
      rw [hres]
      apply sinkDownAux_heapInv
      · constructor
        · intro i hi hi1 hi2 x y hx hy
          have hil : i < ((((first :: b :: t).dropLast).set 0
              ((first :: b :: t).getLast (List.cons_ne_nil _ _)))).length :=
            (List.get?_eq_some.mp hx).1
          rw [List.length_set, List.length_dropLast] at hil
          have hlt : i < t.length + 1 := by
            simpa using hil
          rw [List.get?_set_ne _ _ (show (0 : ℕ) ≠ i by omega)] at hx
          rw [List.get?_set_ne _ _ (show (0 : ℕ) ≠ (i - 1) / 2 by omega)] at hy
          rw [get?_dropLast _ _ (by simp; omega)] at hx
          rw [get?_dropLast _ _ (by simp; omega)] at hy
          exact h i (by omega) x y hx hy
        · intro hpos
          exact absurd hpos (lt_irrefl 0)
      · rw [List.length_set]
        omega

theorem popAllAux_subset {α : Type} [LinearOrder α] :
    ∀ (fuel : ℕ) (c : List (HeapElem α)) (x : HeapElem α),
      x ∈ popAllAux fuel c → x ∈ c := by
  intro fuel
  induction fuel with
  | zero =>
    intro c x hx
    simp [popAllAux] at hx
  | succ fuel ih =>
    intro c x hx
    unfold popAllAux at hx
    cases hpop : heapPopList c with
    | mk r c2 =>
      rw [hpop] at hx
      cases r with
      | none => simp at hx
      | some e =>
        dsimp only at hx
        have hperm := heapPopList_perm c e c2 hpop
        rcases List.mem_cons.mp hx with hx | hx
        · subst hx
          exact hperm.symm.subset (List.mem_cons_self _ _)
        · exact hperm.symm.subset (List.mem_cons_of_mem _ (ih c2 x hx))

theorem popAllAux_chain {α : Type} [LinearOrder α] :
    ∀ (fuel : ℕ) (c : List (HeapElem α)), HeapInv c →
      List.Chain' (fun a b : HeapElem α => a.time ≤ b.time) (popAllAux fuel c) := by
  intro fuel
  induction fuel with
  | zero =>
    intro c hc
    exact List.chain'_nil
  | succ fuel ih =>
    intro c hc
    unfold popAllAux
    cases hpop : heapPopList c with
    | mk r c2 =>
      cases r with
      | none => exact List.chain'_nil
      | some e =>
        dsimp only
        rw [List.chain'_cons']
        constructor
        · intro hd hhd
          have hmem : hd ∈ popAllAux fuel c2 := List.mem_of_mem_head? hhd
          exact heapPopList_min c hc e c2 hpop hd (popAllAux_subset fuel c2 hd hmem)
        · have hinv2 := heapPopList_heapInv c hc
          rw [hpop] at hinv2
          exact ih c2 hinv2

theorem popAllAux_perm {α : Type} [LinearOrder α] :
    ∀ (fuel : ℕ) (c : List (HeapElem α)), c.length ≤ fuel →
      (popAllAux fuel c).Perm c := by
  intro fuel
  induction fuel with
  | zero =>
    intro c hc
    have hnil : c = [] := List.length_eq_zero.mp (Nat.le_zero.mp hc)
    subst hnil
    exact List.Perm.refl _
  | succ fuel ih =>
    intro c hc
    unfold popAllAux
    cases hpop : heapPopList c with
    | mk r c2 =>
      cases r with
      | none =>
        have hnil : c = [] := (heapPopList_none c).mp (by rw [hpop])
        subst hnil
        exact List.Perm.refl _
      | some e =>
        dsimp only
        have hperm := heapPopList_perm c e c2 hpop
        have hlen : c.length = c2.length + 1 := by
          have := hperm.length_eq
          simpa using this
        exact (List.Perm.cons e (ih c2 (by omega))).trans hperm.symm

theorem pushAll_heapInv {α : Type} [LinearOrder α] (l : List (HeapElem α)) :
    ∀ (h : BinaryHeap α), HeapInv h.content →
      HeapInv (BinaryHeap.pushAll h l).content := by
  induction l with
  | nil => intro h hh; exact hh
  | cons e t ih =>
    intro h hh
    exact ih _ (heapPushList_heapInv _ _ hh)

theorem pushAll_perm {α : Type} [LinearOrder α] (l : List (HeapElem α)) :
    ∀ (h : BinaryHeap α), (BinaryHeap.pushAll h l).content.Perm (l ++ h.content) := by
  induction l with
  | nil =>
    intro h
    exact List.Perm.refl _
  | cons e t ih =>
    intro h
    refine (ih (h.push e)).trans ?_
    refine (List.Perm.append_left t (heapPushList_perm h.content e)).trans ?_
    exact List.perm_middle

theorem heapInv_empty {α : Type} [LinearOrder α] :
    HeapInv (BinaryHeap.empty (α := α)).content := by
  intro i hi x y hx hy
  cases i <;> exact Option.noConfusion hx

/-- C4: for every sequence of push operations on a `BinaryHeap` starting from
empty (including pushing the same id several times with different priorities),
successive pops return exactly the stored elements, in non-decreasing order of
their `time` field, regardless of push order. -/
theorem C4_heap_pops_sorted {α : Type} [LinearOrder α] (l : List (HeapElem α)) :
    ((BinaryHeap.pushAll BinaryHeap.empty l).popAll).Perm l ∧
    List.Chain' (fun a b : HeapElem α => a.time ≤ b.time)
      ((BinaryHeap.pushAll BinaryHeap.empty l).popAll) := by
  have hinv := pushAll_heapInv l BinaryHeap.empty heapInv_empty
  have hperm := pushAll_perm l BinaryHeap.empty
  unfold BinaryHeap.popAll
  constructor
  · refine (popAllAux_perm _ _ le_rfl).trans ?_
    simpa [BinaryHeap.empty] using hperm
  · exact popAllAux_chain _ _ hinv

/-! ### C9: computeFromOrigin origin cache -/

theorem foldl_self {β γ : Type} : ∀ (l : List γ) (st : β),
    l.foldl (fun s _ => s) st = st := by
  intro l
  induction l with
  | nil => intro st; rfl
  | cons a t ih =>
    intro st
    rw [List.foldl_cons]
    exact ih st

theorem scanCell_empty_grid (wn : WalkingNetwork) (hg : wn.grid = JsMap.empty)
    (lat lon : ℝ) (st : Option GridPt × ℝ) (cell : ℤ × ℤ) :
    scanCell wn lat lon st cell = st := by
  unfold scanCell
  rw [hg]
  rfl

theorem findNearestNode_empty_grid (wn : WalkingNetwork) (hg : wn.grid = JsMap.empty)
    (lat lon maxDist : ℝ) : findNearestNode wn lat lon maxDist = none := by
  unfold findNearestNode
  by_cases hL : wn.isLoaded = false
  · rw [if_pos hL]
  · rw [if_neg hL]
    dsimp only
    simp only [scanCell_empty_grid wn hg lat lon, foldl_self, ite_self]

theorem computeFromOriginRun_origin (wn : WalkingNetwork) (lat lon : ℝ) (fuel : ℕ)
    (wn' : WalkingNetwork) (h : computeFromOriginRun wn lat lon fuel = some wn') :
    wn'.currentOrigin = some (lat, lon) := by
  unfold computeFromOriginRun at h
  dsimp only at h
  cases hf : findNearestNode
      { wn with walkingTimes := JsMap.empty, currentOrigin := some (lat, lon) }
      lat lon 1000 with
  | none =>
    rw [hf] at h
    dsimp only at h
    injection h with h
    rw [← h]
  | some nd =>
    obtain ⟨node, dist⟩ := nd
    rw [hf] at h
    dsimp only at h
    cases hw : walkLoop
        { wn with walkingTimes := JsMap.empty, currentOrigin := some (lat, lon) }
        fuel
        ⟨(JsMap.empty : JsMap ℕ ℝ).set node.id (dist / 1.3),
          BinaryHeap.empty.push ⟨node.id, dist / 1.3⟩⟩ with
    | none =>
      rw [hw] at h
      dsimp only at h
      exact Option.noConfusion h
    | some times =>
      rw [hw] at h
      dsimp only at h
      injection h with h
      rw [← h]

/-- Counterexample to claim C9: on `wn9` (stored origin `(0, 0)`) a call at
latitude `0.00009999` completes as a cache hit and leaves the stale stored
origin; a second call whose coordinates differ from the first call's by only
`0.00000002` degrees then recomputes, emptying the walking-times map and
replacing the stored origin — the repeated call is not a no-op. -/
theorem C9_counterexample :
    computeFromOrigin wn9 0.00009999 0 7 = some wn9 ∧
    |(0.00009999 : ℝ) - 0.00010001| < 0.0001 ∧
    ∃ wn', computeFromOrigin wn9 0.00010001 0 7 = some wn' ∧
      wn'.walkingTimes = JsMap.empty ∧
      wn'.currentOrigin = some (0.00010001, 0) ∧
      wn9.walkingTimes ≠ JsMap.empty ∧
      wn9.currentOrigin = some (0, 0) := by
  refine ⟨?_, by rw [abs_sub_lt_iff]; norm_num, ?_⟩
  · unfold computeFromOrigin
    rw [if_neg (by simp [wn9])]
    show (if |(0 : ℝ) - 0.00009999| < 0.0001 ∧ |(0 : ℝ) - 0| < 0.0001 then some wn9
          else computeFromOriginRun wn9 0.00009999 0 7) = some wn9
    rw [if_pos ⟨by rw [abs_sub_lt_iff]; norm_num, by rw [abs_sub_lt_iff]; norm_num⟩]
  · refine ⟨{ wn9 with walkingTimes := JsMap.empty, currentOrigin := some (0.00010001, 0) }, ?_, rfl, rfl, ?_, rfl⟩
    · unfold computeFromOrigin
      rw [if_neg (by simp [wn9])]
      show (if |(0 : ℝ) - 0.00010001| < 0.0001 ∧ |(0 : ℝ) - 0| < 0.0001 then some wn9
            else computeFromOriginRun wn9 0.00010001 0 7) = some _
      rw [if_neg (by simp only [abs_sub_lt_iff]; norm_num)]
      unfold computeFromOriginRun
      dsimp only
      rw [findNearestNode_empty_grid _ rfl]
    · intro h
      have := congrArg JsMap.entries h
      simp [wn9, JsMap.set, JsMap.setList, JsMap.empty] at this

/-- Claim C9 as amended: the no-op cache check compares the requested origin
with the stored `currentOrigin`, not with the arguments of the previous call.
Whenever the network is loaded and enabled and both coordinates of the
requested origin lie within 0.0001 degrees of the stored origin, the call
returns the state unchanged; and any call that returns a changed state has
stored its own origin, so an exact repeat of a recomputing call is a no-op. -/
theorem C9_amended_origin_cache :
    (∀ (wn : WalkingNetwork) (o : ℝ × ℝ) (lat lon : ℝ) (fuel : ℕ),
      wn.isLoaded = true → wn.enabled = true → wn.currentOrigin = some o →
      |o.1 - lat| < 0.0001 → |o.2 - lon| < 0.0001 →
      computeFromOrigin wn lat lon fuel = some wn) ∧
    (∀ (wn wn' : WalkingNetwork) (lat lon : ℝ) (fuel : ℕ),
      computeFromOrigin wn lat lon fuel = some wn' →
      wn' = wn ∨ wn'.currentOrigin = some (lat, lon)) := by
  constructor
  · intro wn o lat lon fuel hL hE hO hlat hlon
    unfold computeFromOrigin
    rw [if_neg (by simp [hL, hE])]
    rw [hO]
    dsimp only
    rw [if_pos ⟨hlat, hlon⟩]
  · intro wn wn' lat lon fuel h
    unfold computeFromOrigin at h
    by_cases hLE : wn.isLoaded = false ∨ wn.enabled = false
    · rw [if_pos hLE] at h
      injection h with h
      exact Or.inl h.symm
    · rw [if_neg hLE] at h
      cases ho : wn.currentOrigin with
      | none =>
        rw [ho] at h
        dsimp only at h
        exact Or.inr (computeFromOriginRun_origin wn lat lon fuel wn' h)
      | some o =>
        rw [ho] at h
        dsimp only at h
        by_cases heps : |o.1 - lat| < 0.0001 ∧ |o.2 - lon| < 0.0001
        · rw [if_pos heps] at h
          injection h with h
          exact Or.inl h.symm
        · rw [if_neg heps] at h
          exact Or.inr (computeFromOriginRun_origin wn lat lon fuel wn' h)

/-! ### Analytic toolkit for the haversine distance and grid keys -/

theorem sin_le_self_of_nonneg (x : ℝ) (h : 0 ≤ x) : Real.sin x ≤ x := by
  rcases eq_or_lt_of_le h with h | h
  · rw [← h, Real.sin_zero]
  · exact le_of_lt (Real.sin_lt h)

theorem le_arcsin_self (x : ℝ) (h0 : 0 ≤ x) (h1 : x ≤ 1) : x ≤ Real.arcsin x := by
  have harc : 0 ≤ Real.arcsin x := Real.arcsin_nonneg.mpr h0
  have hs := sin_le_self_of_nonneg (Real.arcsin x) harc
  rw [Real.sin_arcsin (by linarith) h1] at hs
  exact hs

theorem abs_sin_eq_sin_abs (t : ℝ) (h : |t| ≤ Real.pi) : |Real.sin t| = Real.sin |t| := by
  rcases le_or_lt 0 t with ht | ht
  · rw [abs_of_nonneg ht, abs_of_nonneg
      (Real.sin_nonneg_of_nonneg_of_le_pi ht (by rw [abs_of_nonneg ht] at h; exact h))]
  · rw [abs_of_neg ht, Real.sin_neg]
    have hnn : 0 ≤ Real.sin (-t) :=
      Real.sin_nonneg_of_nonneg_of_le_pi (by linarith)
        (by rw [abs_of_neg ht] at h; exact h)
    rw [Real.sin_neg] at hnn
    exact abs_of_nonpos (by linarith)

theorem sub_cube_le_abs_sin (x : ℝ) (h : |x| ≤ 1) : |x| - |x| ^ 3 / 4 ≤ |Real.sin x| := by
  rcases eq_or_ne x 0 with h0 | h0
  · subst h0
    simp
  · have hpos : 0 < |x| := abs_pos.mpr h0
    have hlt := Real.sin_gt_sub_cube hpos h
    rw [abs_sin_eq_sin_abs x (le_trans h (by linarith [Real.pi_gt_3141592]))]
    exact le_of_lt hlt

theorem atan2_sqrt_eq_arcsin (a : ℝ) (h0 : 0 ≤ a) (h1 : a ≤ 1) :
    atan2 (Real.sqrt a) (Real.sqrt (1 - a)) = Real.arcsin (Real.sqrt a) := by
  rcases lt_or_eq_of_le h1 with hlt | heq
  · have hx : 0 < Real.sqrt (1 - a) := Real.sqrt_pos.mpr (by linarith)
    unfold atan2
    rw [if_pos hx]
    rw [Real.arcsin_eq_arctan (by
      constructor
      · linarith [Real.sqrt_nonneg a]
      · rw [show (1 : ℝ) = Real.sqrt 1 from Real.sqrt_one.symm]
        exact Real.sqrt_lt_sqrt h0 hlt)]
    rw [Real.sq_sqrt h0]
  · subst heq
    rw [sub_self, Real.sqrt_zero, Real.sqrt_one, Real.arcsin_one]
    unfold atan2
    norm_num

theorem distHaversine_eq_arcsin (lat1 lon1 lat2 lon2 : ℝ)
    (h0 : 0 ≤ haverA lat1 lon1 lat2 lon2) (h1 : haverA lat1 lon1 lat2 lon2 ≤ 1) :
    distHaversine lat1 lon1 lat2 lon2 =
      6371000 * (2 * Real.arcsin (Real.sqrt (haverA lat1 lon1 lat2 lon2))) := by
  unfold distHaversine
  dsimp only
  rw [show Real.sin ((lat2 - lat1) * Real.pi / 180 / 2) *
        Real.sin ((lat2 - lat1) * Real.pi / 180 / 2) +
        Real.cos (lat1 * Real.pi / 180) * Real.cos (lat2 * Real.pi / 180) *
        (Real.sin ((lon2 - lon1) * Real.pi / 180 / 2) *
          Real.sin ((lon2 - lon1) * Real.pi / 180 / 2)) =
      haverA lat1 lon1 lat2 lon2 from rfl]
  rw [atan2_sqrt_eq_arcsin _ h0 h1]

theorem haverA_nonneg (lat1 lon1 lat2 lon2 : ℝ)
    (hcc : 0 ≤ Real.cos (lat1 * Real.pi / 180) * Real.cos (lat2 * Real.pi / 180)) :
    0 ≤ haverA lat1 lon1 lat2 lon2 := by
  unfold haverA
  dsimp only
  exact add_nonneg (mul_self_nonneg _) (mul_nonneg hcc (mul_self_nonneg _))

theorem haverA_le_one_box (lat1 lon1 lat2 lon2 : ℝ)
    (h1 : |lat1| ≤ 1) (h2 : |lat2| ≤ 1) (hlo1 : |lon1| ≤ 1) (hlo2 : |lon2| ≤ 1) :
    haverA lat1 lon1 lat2 lon2 ≤ 1 := by
  unfold haverA
  dsimp only
  have hA : |(lat2 - lat1) * Real.pi / 180 / 2| ≤ 0.018 := by
    have he : |(lat2 - lat1) * Real.pi / 180 / 2| = |lat2 - lat1| * Real.pi / 180 / 2 := by
      rw [abs_div, abs_div, abs_mul, abs_of_pos Real.pi_pos]
      norm_num
    rw [he]
    have h12 : |lat2 - lat1| ≤ 2 := by
      calc |lat2 - lat1| ≤ |lat2| + |lat1| := abs_sub _ _
      _ ≤ 2 := by linarith
    have hpi := Real.pi_lt_3141593
    nlinarith [Real.pi_pos]
  have hB : |(lon2 - lon1) * Real.pi / 180 / 2| ≤ 0.018 := by
    have he : |(lon2 - lon1) * Real.pi / 180 / 2| = |lon2 - lon1| * Real.pi / 180 / 2 := by
      rw [abs_div, abs_div, abs_mul, abs_of_pos Real.pi_pos]
      norm_num
    rw [he]
    have h12 : |lon2 - lon1| ≤ 2 := by
      calc |lon2 - lon1| ≤ |lon2| + |lon1| := abs_sub _ _
      _ ≤ 2 := by linarith
    have hpi := Real.pi_lt_3141593
    nlinarith [Real.pi_pos]
  have hsA : Real.sin ((lat2 - lat1) * Real.pi / 180 / 2) *
      Real.sin ((lat2 - lat1) * Real.pi / 180 / 2) ≤ 0.018 ^ 2 := by
    have hb : |Real.sin ((lat2 - lat1) * Real.pi / 180 / 2)| ≤ 0.018 :=
      le_trans Real.abs_sin_le_abs hA
    nlinarith [abs_nonneg (Real.sin ((lat2 - lat1) * Real.pi / 180 / 2)),
      abs_mul_abs_self (Real.sin ((lat2 - lat1) * Real.pi / 180 / 2))]
  have hsB : Real.sin ((lon2 - lon1) * Real.pi / 180 / 2) *
      Real.sin ((lon2 - lon1) * Real.pi / 180 / 2) ≤ 0.018 ^ 2 := by
    have hb : |Real.sin ((lon2 - lon1) * Real.pi / 180 / 2)| ≤ 0.018 :=
      le_trans Real.abs_sin_le_abs hB
    nlinarith [abs_nonneg (Real.sin ((lon2 - lon1) * Real.pi / 180 / 2)),
      abs_mul_abs_self (Real.sin ((lon2 - lon1) * Real.pi / 180 / 2))]
  have hcc1 : Real.cos (lat1 * Real.pi / 180) * Real.cos (lat2 * Real.pi / 180) ≤ 1 := by
    calc Real.cos (lat1 * Real.pi / 180) * Real.cos (lat2 * Real.pi / 180)
        ≤ |Real.cos (lat1 * Real.pi / 180) * Real.cos (lat2 * Real.pi / 180)| := le_abs_self _
    _ = |Real.cos (lat1 * Real.pi / 180)| * |Real.cos (lat2 * Real.pi / 180)| := abs_mul _ _
    _ ≤ 1 * 1 := mul_le_mul (Real.abs_cos_le_one _) (Real.abs_cos_le_one _)
        (abs_nonneg _) zero_le_one
    _ = 1 := by norm_num
  have hsBnn : 0 ≤ Real.sin ((lon2 - lon1) * Real.pi / 180 / 2) *
      Real.sin ((lon2 - lon1) * Real.pi / 180 / 2) := mul_self_nonneg _
  nlinarith [hsA, hsB, hcc1, hsBnn]

theorem distHaversine_ge_lat (lat1 lon1 lat2 lon2 : ℝ)
    (hcc : 0 ≤ Real.cos (lat1 * Real.pi / 180) * Real.cos (lat2 * Real.pi / 180))
    (h1 : haverA lat1 lon1 lat2 lon2 ≤ 1)
    (hsmall : |(lat2 - lat1) * Real.pi / 180 / 2| ≤ Real.pi / 2) :
    6371000 * |(lat2 - lat1) * Real.pi / 180| ≤ distHaversine lat1 lon1 lat2 lon2 := by
  have h0 := haverA_nonneg lat1 lon1 lat2 lon2 hcc
  rw [distHaversine_eq_arcsin _ _ _ _ h0 h1]
  have hsq : |Real.sin ((lat2 - lat1) * Real.pi / 180 / 2)| ≤
      Real.sqrt (haverA lat1 lon1 lat2 lon2) := by
    have hle : Real.sin ((lat2 - lat1) * Real.pi / 180 / 2) *
        Real.sin ((lat2 - lat1) * Real.pi / 180 / 2) ≤ haverA lat1 lon1 lat2 lon2 := by
      unfold haverA
      dsimp only
      have := mul_nonneg hcc (mul_self_nonneg
        (Real.sin ((lon2 - lon1) * Real.pi / 180 / 2)))
      linarith
    calc |Real.sin ((lat2 - lat1) * Real.pi / 180 / 2)|
        = Real.sqrt (Real.sin ((lat2 - lat1) * Real.pi / 180 / 2) *
            Real.sin ((lat2 - lat1) * Real.pi / 180 / 2)) := by
          rw [show Real.sin ((lat2 - lat1) * Real.pi / 180 / 2) *
              Real.sin ((lat2 - lat1) * Real.pi / 180 / 2) =
              Real.sin ((lat2 - lat1) * Real.pi / 180 / 2) ^ 2 by ring]
          exact (Real.sqrt_sq_eq_abs _).symm
    _ ≤ Real.sqrt (haverA lat1 lon1 lat2 lon2) := Real.sqrt_le_sqrt hle
  have harc : |(lat2 - lat1) * Real.pi / 180 / 2| ≤
      Real.arcsin (Real.sqrt (haverA lat1 lon1 lat2 lon2)) := by
    have h2 := Real.monotone_arcsin hsq
    rw [abs_sin_eq_sin_abs _ (le_trans hsmall (by linarith [Real.pi_pos]))] at h2
    rw [Real.arcsin_sin (by
      linarith [abs_nonneg ((lat2 - lat1) * Real.pi / 180 / 2), Real.pi_pos]) hsmall] at h2
    exact h2
  have hhalf : |(lat2 - lat1) * Real.pi / 180 / 2| =
      |(lat2 - lat1) * Real.pi / 180| / 2 := by
    rw [abs_div]
    norm_num
  rw [hhalf] at harc
  linarith [harc]

theorem distHaversine_ge_lon (lat1 lon1 lat2 lon2 c : ℝ) (hc0 : 0 ≤ c)
    (hc1 : c ≤ Real.cos (lat1 * Real.pi / 180))
    (hc2 : c ≤ Real.cos (lat2 * Real.pi / 180))
    (h1 : haverA lat1 lon1 lat2 lon2 ≤ 1) :
    2 * 6371000 * (c * |Real.sin ((lon2 - lon1) * Real.pi / 180 / 2)|) ≤
      distHaversine lat1 lon1 lat2 lon2 := by
  have hccl : c * c ≤ Real.cos (lat1 * Real.pi / 180) * Real.cos (lat2 * Real.pi / 180) :=
    mul_le_mul hc1 hc2 hc0 (le_trans hc0 hc1)
  have hcc : 0 ≤ Real.cos (lat1 * Real.pi / 180) * Real.cos (lat2 * Real.pi / 180) :=
    le_trans (mul_self_nonneg c) hccl
  have h0 := haverA_nonneg lat1 lon1 lat2 lon2 hcc
  rw [distHaversine_eq_arcsin _ _ _ _ h0 h1]
  have hsq : c * |Real.sin ((lon2 - lon1) * Real.pi / 180 / 2)| ≤
      Real.sqrt (haverA lat1 lon1 lat2 lon2) := by
    have hle : (c * |Real.sin ((lon2 - lon1) * Real.pi / 180 / 2)|) *
        (c * |Real.sin ((lon2 - lon1) * Real.pi / 180 / 2)|) ≤
        haverA lat1 lon1 lat2 lon2 := by
      unfold haverA
      dsimp only
      have he : (c * |Real.sin ((lon2 - lon1) * Real.pi / 180 / 2)|) *
          (c * |Real.sin ((lon2 - lon1) * Real.pi / 180 / 2)|) =
          (c * c) * (Real.sin ((lon2 - lon1) * Real.pi / 180 / 2) *
            Real.sin ((lon2 - lon1) * Real.pi / 180 / 2)) := by
        rw [show (c * |Real.sin ((lon2 - lon1) * Real.pi / 180 / 2)|) *
            (c * |Real.sin ((lon2 - lon1) * Real.pi / 180 / 2)|) =
            (c * c) * (|Real.sin ((lon2 - lon1) * Real.pi / 180 / 2)| *
              |Real.sin ((lon2 - lon1) * Real.pi / 180 / 2)|) by ring]
        rw [abs_mul_abs_self]
      rw [he]
      have hmul : (c * c) * (Real.sin ((lon2 - lon1) * Real.pi / 180 / 2) *
          Real.sin ((lon2 - lon1) * Real.pi / 180 / 2)) ≤
          Real.cos (lat1 * Real.pi / 180) * Real.cos (lat2 * Real.pi / 180) *
          (Real.sin ((lon2 - lon1) * Real.pi / 180 / 2) *
            Real.sin ((lon2 - lon1) * Real.pi / 180 / 2)) :=
        mul_le_mul_of_nonneg_right hccl (mul_self_nonneg _)
      have hsin2 := mul_self_nonneg (Real.sin ((lat2 - lat1) * Real.pi / 180 / 2))
      linarith
    have hs := Real.sqrt_le_sqrt hle
    rw [Real.sqrt_mul_self (by positivity)] at hs
    exact hs
  have hle1 : Real.sqrt (haverA lat1 lon1 lat2 lon2) ≤ 1 := by
    rw [show (1 : ℝ) = Real.sqrt 1 from Real.sqrt_one.symm]
    exact Real.sqrt_le_sqrt h1
  have harc := le_arcsin_self (Real.sqrt (haverA lat1 lon1 lat2 lon2))
    (Real.sqrt_nonneg _) hle1
  linarith

theorem distHaversine_same_lon (lat1 lat2 lon : ℝ)
    (h0 : 0 ≤ (lat2 - lat1) * Real.pi / 180)
    (h2 : (lat2 - lat1) * Real.pi / 180 ≤ Real.pi) :
    distHaversine lat1 lon lat2 lon =
      6371000 * ((lat2 - lat1) * Real.pi / 180) := by
  unfold distHaversine
  dsimp only
  have hz : (lon - lon) * Real.pi / 180 / 2 = 0 := by ring
  rw [hz, Real.sin_zero]
  have hself : Real.sin ((lat2 - lat1) * Real.pi / 180 / 2) *
      Real.sin ((lat2 - lat1) * Real.pi / 180 / 2) +
      Real.cos (lat1 * Real.pi / 180) * Real.cos (lat2 * Real.pi / 180) * (0 * 0) =
      Real.sin ((lat2 - lat1) * Real.pi / 180 / 2) *
      Real.sin ((lat2 - lat1) * Real.pi / 180 / 2) := by ring
  rw [hself]
  have hsnn : 0 ≤ Real.sin ((lat2 - lat1) * Real.pi / 180 / 2) :=
    Real.sin_nonneg_of_nonneg_of_le_pi (by linarith) (by linarith [Real.pi_pos])
  have hcnn : 0 ≤ Real.cos ((lat2 - lat1) * Real.pi / 180 / 2) :=
    Real.cos_nonneg_of_mem_Icc ⟨by linarith [Real.pi_pos], by linarith⟩
  rw [Real.sqrt_mul_self hsnn]
  have hone : 1 - Real.sin ((lat2 - lat1) * Real.pi / 180 / 2) *
      Real.sin ((lat2 - lat1) * Real.pi / 180 / 2) =
      Real.cos ((lat2 - lat1) * Real.pi / 180 / 2) *
      Real.cos ((lat2 - lat1) * Real.pi / 180 / 2) := by
    have hpy := Real.sin_sq_add_cos_sq ((lat2 - lat1) * Real.pi / 180 / 2)
    nlinarith [hpy]
  rw [hone, Real.sqrt_mul_self hcnn]
  rcases lt_or_eq_of_le (show (lat2 - lat1) * Real.pi / 180 / 2 ≤ Real.pi / 2 by linarith) with
    hlt | heq
  · have hcpos : 0 < Real.cos ((lat2 - lat1) * Real.pi / 180 / 2) :=
      Real.cos_pos_of_mem_Ioo ⟨by linarith [Real.pi_pos], hlt⟩
    unfold atan2
    rw [if_pos hcpos]
    rw [← Real.tan_eq_sin_div_cos, Real.arctan_tan (by linarith [Real.pi_pos]) hlt]
    ring
  · rw [heq, Real.cos_pi_div_two, Real.sin_pi_div_two]
    unfold atan2
    have hd : (lat2 - lat1) * Real.pi / 180 = Real.pi := by linarith
    rw [hd]
    norm_num
    ring

/-! ### C3: SpatialIndex.query -/

theorem mem_rangeClosed (a b x : ℤ) : x ∈ rangeClosed a b ↔ a ≤ x ∧ x ≤ b := by
  unfold rangeClosed
  constructor
  · intro hx
    obtain ⟨i, hi, he⟩ := List.mem_map.mp hx
    rw [List.mem_range] at hi
    omega
  · rintro ⟨h1, h2⟩
    refine List.mem_map.mpr ⟨(x - a).toNat, ?_, ?_⟩
    · rw [List.mem_range]
      omega
    · show a + ((x - a).toNat : ℤ) = x
      omega

theorem foldl_append_eq {β γ : Type} (g : γ → List β) :
    ∀ (l : List γ) (acc : List β),
      l.foldl (fun a x => a ++ g x) acc = acc ++ l.flatMap g := by
  intro l
  induction l with
  | nil =>
    intro acc
    simp
  | cons a t ih =>
    intro acc
    rw [List.foldl_cons, ih, List.flatMap_cons, List.append_assoc]

theorem query_eq (s : SpatialIndex) (lat lon r : ℝ) :
    s.query lat lon r =
      (rangeClosed (-(⌈r / s.cellSize⌉ + 1)) (⌈r / s.cellSize⌉ + 1)).flatMap (fun dy =>
        (rangeClosed (-(⌈r / s.cellSize⌉ + 1)) (⌈r / s.cellSize⌉ + 1)).flatMap (fun dx =>
          (s.grid.get ((gridKey s.cellSize lat lon).1 + dx,
            (gridKey s.cellSize lat lon).2 + dy)).getD [])) := by
  unfold SpatialIndex.query
  dsimp only
  have hfun : ∀ dy : ℤ, (fun (acc2 : List StationRec) (dx : ℤ) =>
      match s.grid.get ((gridKey s.cellSize lat lon).1 + dx,
        (gridKey s.cellSize lat lon).2 + dy) with
      | some cellStations => acc2 ++ cellStations
      | none => acc2) = (fun acc2 dx => acc2 ++
        (s.grid.get ((gridKey s.cellSize lat lon).1 + dx,
          (gridKey s.cellSize lat lon).2 + dy)).getD []) := by
    intro dy
    funext acc2 dx
    cases hg : s.grid.get ((gridKey s.cellSize lat lon).1 + dx,
        (gridKey s.cellSize lat lon).2 + dy) with
    | none => simp
    | some cell => simp
  simp only [hfun, foldl_append_eq, List.nil_append]

theorem mem_query_iff (s : SpatialIndex) (lat lon r : ℝ) (q : StationRec) :
    q ∈ s.query lat lon r ↔ ∃ dy dx : ℤ,
      -(⌈r / s.cellSize⌉ + 1) ≤ dy ∧ dy ≤ ⌈r / s.cellSize⌉ + 1 ∧
      -(⌈r / s.cellSize⌉ + 1) ≤ dx ∧ dx ≤ ⌈r / s.cellSize⌉ + 1 ∧
      ∃ cell, s.grid.get ((gridKey s.cellSize lat lon).1 + dx,
        (gridKey s.cellSize lat lon).2 + dy) = some cell ∧ q ∈ cell := by
  rw [query_eq]
  simp only [List.mem_flatMap, mem_rangeClosed]
  constructor
  · rintro ⟨dy, ⟨hdy1, hdy2⟩, dx, ⟨hdx1, hdx2⟩, hq⟩
    cases hg : s.grid.get ((gridKey s.cellSize lat lon).1 + dx,
        (gridKey s.cellSize lat lon).2 + dy) with
    | none =>
      rw [hg] at hq
      simp at hq
    | some cell =>
      rw [hg] at hq
      exact ⟨dy, dx, hdy1, hdy2, hdx1, hdx2, cell, hg, hq⟩
  · rintro ⟨dy, dx, hdy1, hdy2, hdx1, hdx2, cell, hg, hq⟩
    refine ⟨dy, ⟨hdy1, hdy2⟩, dx, ⟨hdx1, hdx2⟩, ?_⟩
    rw [hg]
    exact hq

theorem cos_gap_80 :
    Real.cos (80 * Real.pi / 180) - Real.cos (80 * Real.pi / 180 + 450 / 6371000) ≥
      0.00005 := by
  have hpl := Real.pi_lt_3141593
  have hpg := Real.pi_gt_3141592
  have hid : Real.cos (80 * Real.pi / 180) -
      Real.cos (80 * Real.pi / 180 + 450 / 6371000) =
      2 * Real.sin (80 * Real.pi / 180 + 225 / 6371000) * Real.sin (225 / 6371000) := by
    rw [Real.cos_sub_cos]
    rw [show (80 * Real.pi / 180 + (80 * Real.pi / 180 + 450 / 6371000)) / 2 =
        80 * Real.pi / 180 + 225 / 6371000 by ring]
    rw [show (80 * Real.pi / 180 - (80 * Real.pi / 180 + 450 / 6371000)) / 2 =
        -(225 / 6371000 : ℝ) by ring]
    rw [Real.sin_neg]
    ring
  have hs1 : Real.sin (225 / 6371000 : ℝ) ≥ 0.0000353 := by
    have h := Real.sin_gt_sub_cube (show (0 : ℝ) < 225 / 6371000 by norm_num)
      (show (225 / 6371000 : ℝ) ≤ 1 by norm_num)
    nlinarith [h]
  have hs2 : Real.sin (80 * Real.pi / 180 + 225 / 6371000) ≥ 0.984 := by
    have he : Real.sin (80 * Real.pi / 180 + 225 / 6371000) =
        Real.cos (Real.pi / 18 - 225 / 6371000) := by
      rw [← Real.cos_pi_div_two_sub]
      congr 1
      ring
    rw [he]
    have hb := @Real.one_sub_sq_div_two_le_cos (Real.pi / 18 - 225 / 6371000)
    have ht1 : Real.pi / 18 - 225 / 6371000 ≤ 0.1745330 := by linarith
    have ht0 : (0 : ℝ) ≤ Real.pi / 18 - 225 / 6371000 := by linarith
    have hsq : (Real.pi / 18 - 225 / 6371000) * (Real.pi / 18 - 225 / 6371000) ≤
        0.1745330 * 0.1745330 := mul_le_mul ht1 ht1 ht0 (by norm_num)
    nlinarith [hb, hsq]
  rw [hid]
  nlinarith [hs1, hs2]

theorem st3_lat_rad : st3.lat * Real.pi / 180 = 80 * Real.pi / 180 + 450 / 6371000 := by
  show (80 + 450 * 180 / (6371000 * Real.pi)) * Real.pi / 180 =
    80 * Real.pi / 180 + 450 / 6371000
  field_simp
  ring

theorem C3_x_gap : (gridKey 100 st3.lat 178).1 + 7 ≤ (gridKey 100 (80 : ℝ) 178).1 := by
  unfold gridKey
  dsimp only
  rw [st3_lat_rad]
  have hgap : (178 : ℝ) * 111000 * Real.cos (80 * Real.pi / 180) / 100 -
      178 * 111000 * Real.cos (80 * Real.pi / 180 + 450 / 6371000) / 100 ≥ 8 := by
    nlinarith [cos_gap_80]
  have h1 := Int.floor_le
    ((178 : ℝ) * 111000 * Real.cos (80 * Real.pi / 180 + 450 / 6371000) / 100)
  have h2 := Int.lt_floor_add_one
    ((178 : ℝ) * 111000 * Real.cos (80 * Real.pi / 180) / 100)
  have hlt : ((⌊(178 : ℝ) * 111000 *
      Real.cos (80 * Real.pi / 180 + 450 / 6371000) / 100⌋ : ℝ) + 7) <
      ((⌊(178 : ℝ) * 111000 * Real.cos (80 * Real.pi / 180) / 100⌋ : ℝ)) := by
    linarith
  have hint : (⌊(178 : ℝ) * 111000 *
      Real.cos (80 * Real.pi / 180 + 450 / 6371000) / 100⌋ + 7) <
      ⌊(178 : ℝ) * 111000 * Real.cos (80 * Real.pi / 180) / 100⌋ := by
    exact_mod_cast hlt
  omega

/-- Counterexample to claim C3: the spatial index `idx3` (cell size 100 m)
holds the single station `st3`, which lies 450 m ≤ 500 m from the query point
(80°N, 178°E); yet `query` misses it, because the station's grid key was
computed with the cosine of the station's own latitude while the query's
center key uses the query's latitude, and at this latitude and longitude the
two x-cells are more than `⌈500/100⌉+1 = 6` cells apart. -/
theorem C3_counterexample :
    idx3.cellSize ≤ 500 ∧ st3 ∈ idx3.stations ∧
    distHaversine 80 178 st3.lat st3.lon ≤ 500 ∧
    st3 ∉ idx3.query 80 178 500 := by
  have hd : (st3.lat - 80) * Real.pi / 180 = 450 / 6371000 := by
    have h := st3_lat_rad
    nlinarith [h]
  refine ⟨?_, ?_, ?_, ?_⟩
  · show (100 : ℝ) ≤ 500
    norm_num
  · show st3 ∈ [st3]
    simp
  · show distHaversine 80 178 st3.lat 178 ≤ 500
    rw [distHaversine_same_lon 80 st3.lat 178 (by rw [hd]; norm_num)
      (by rw [hd]; linarith [Real.pi_gt_3141592])]
    rw [hd]
    norm_num
  · intro hmem
    rw [mem_query_iff] at hmem
    have hcs : idx3.cellSize = 100 := rfl
    rw [hcs] at hmem
    obtain ⟨dy, dx, hdy1, hdy2, hdx1, hdx2, cell, hg, hq⟩ := hmem
    have hc6 : (⌈(500 : ℝ) / 100⌉ + 1 : ℤ) = 6 := by norm_num
    rw [hc6] at hdx1 hdx2 hdy1 hdy2
    have hgrid : idx3.grid =
        (JsMap.empty : JsMap (ℤ × ℤ) (List StationRec)).set
          (gridKey 100 st3.lat 178) [st3] := rfl
    have hne : gridKey 100 st3.lat 178 ≠
        ((gridKey 100 (80 : ℝ) 178).1 + dx, (gridKey 100 (80 : ℝ) 178).2 + dy) := by
      intro he
      have h1 : (gridKey 100 st3.lat 178).1 =
          (gridKey 100 (80 : ℝ) 178).1 + dx := congrArg Prod.fst he
      have h2 := C3_x_gap
      omega
    rw [hgrid, JsMap.get_set, if_neg hne, JsMap.get_empty] at hg
    exact Option.noConfusion hg

theorem add_cellSize (s : SpatialIndex) (q : StationRec) :
    (s.add q).cellSize = s.cellSize := rfl

theorem add_preserves_bucket (s : SpatialIndex) (q' q : StationRec) (k : ℤ × ℤ)
    (h : ∃ cell, s.grid.get k = some cell ∧ q ∈ cell) :
    ∃ cell, (s.add q').grid.get k = some cell ∧ q ∈ cell := by
  obtain ⟨cell, hg, hq⟩ := h
  unfold SpatialIndex.add
  dsimp only
  by_cases hk : gridKey s.cellSize q'.lat q'.lon = k
  · subst hk
    rw [hg]
    dsimp only
    exact ⟨cell ++ [q'], JsMap.get_set_self _ _ _, List.mem_append.mpr (Or.inl hq)⟩
  · cases hgk : s.grid.get (gridKey s.cellSize q'.lat q'.lon) with
    | none =>
      dsimp only
      exact ⟨cell, by rw [JsMap.get_set_ne _ _ _ _ hk]; exact hg, hq⟩
    | some cell0 =>
      dsimp only
      exact ⟨cell, by rw [JsMap.get_set_ne _ _ _ _ hk]; exact hg, hq⟩

theorem add_new_bucket (s : SpatialIndex) (q : StationRec) :
    ∃ cell, (s.add q).grid.get (gridKey s.cellSize q.lat q.lon) = some cell ∧
      q ∈ cell := by
  unfold SpatialIndex.add
  dsimp only
  cases hgk : s.grid.get (gridKey s.cellSize q.lat q.lon) with
  | none =>
    dsimp only
    exact ⟨[q], JsMap.get_set_self _ _ _, List.mem_singleton.mpr rfl⟩
  | some cell0 =>
    dsimp only
    exact ⟨cell0 ++ [q], JsMap.get_set_self _ _ _,
      List.mem_append.mpr (Or.inr (List.mem_singleton.mpr rfl))⟩

theorem addAll_cellSize : ∀ (l : List StationRec) (s : SpatialIndex),
    (s.addAll l).cellSize = s.cellSize := by
  intro l
  induction l with
  | nil => intro s; rfl
  | cons p t ih =>
    intro s
    exact (ih (s.add p)).trans (add_cellSize s p)

theorem addAll_preserves_bucket : ∀ (l : List StationRec) (s : SpatialIndex)
    (q : StationRec) (k : ℤ × ℤ),
    (∃ cell, s.grid.get k = some cell ∧ q ∈ cell) →
    ∃ cell, (s.addAll l).grid.get k = some cell ∧ q ∈ cell := by
  intro l
  induction l with
  | nil => intro s q k h; exact h
  | cons p t ih =>
    intro s q k h
    exact ih (s.add p) q k (add_preserves_bucket s p q k h)

theorem addAll_bucket : ∀ (l : List StationRec) (s : SpatialIndex) (q : StationRec),
    q ∈ l →
    ∃ cell, (s.addAll l).grid.get (gridKey s.cellSize q.lat q.lon) = some cell ∧
      q ∈ cell := by
  intro l
  induction l with
  | nil =>
    intro s q h
    simp at h
  | cons p t ih =>
    intro s q hq
    rcases List.mem_cons.mp hq with hq | hq
    · subst hq
      exact addAll_preserves_bucket t (s.add q) q _ (add_new_bucket s q)
    · have h2 := ih (s.add p) q hq
      rw [add_cellSize] at h2
      exact h2

theorem cos_ge_small (t : ℝ) (h : |t| ≤ 0.018) : 0.9998 ≤ Real.cos t := by
  have hb := @Real.one_sub_sq_div_two_le_cos t
  have h3 : |t| * |t| ≤ 0.018 * 0.018 := mul_le_mul h h (abs_nonneg t) (by norm_num)
  rw [abs_mul_abs_self] at h3
  nlinarith [hb, h3]

theorem abs_rad_le_box (x : ℝ) (h : |x| ≤ 1) : |x * Real.pi / 180| ≤ 0.018 := by
  have he : |x * Real.pi / 180| = |x| * Real.pi / 180 := by
    rw [abs_div, abs_mul, abs_of_pos Real.pi_pos]
    norm_num
  rw [he]
  nlinarith [Real.pi_lt_3141593, Real.pi_pos]

theorem abs_half_rad_le_box (x : ℝ) (h : |x| ≤ 2) : |x * Real.pi / 180 / 2| ≤ 0.018 := by
  have he : |x * Real.pi / 180 / 2| = |x| * Real.pi / 180 / 2 := by
    rw [abs_div, abs_div, abs_mul, abs_of_pos Real.pi_pos]
    norm_num
  rw [he]
  nlinarith [Real.pi_lt_3141593, Real.pi_pos]

theorem abs_floor_sub_le (u v : ℝ) (c : ℤ) (h : |u - v| < (c : ℝ)) :
    |⌊u⌋ - ⌊v⌋| ≤ c := by
  rw [abs_lt] at h
  have h1 := Int.floor_le u
  have h2 := Int.floor_le v
  have h3 := Int.lt_floor_add_one u
  have h4 := Int.lt_floor_add_one v
  have hA : ((⌊u⌋ - ⌊v⌋ : ℤ) : ℝ) < (c : ℝ) + 1 := by
    push_cast
    linarith
  have hB : ((⌊v⌋ - ⌊u⌋ : ℤ) : ℝ) < (c : ℝ) + 1 := by
    push_cast
    linarith
  have hA2 : ⌊u⌋ - ⌊v⌋ < c + 1 := by exact_mod_cast hA
  have hB2 : ⌊v⌋ - ⌊u⌋ < c + 1 := by exact_mod_cast hB
  rw [abs_le]
  omega

set_option maxHeartbeats 1600000 in
theorem key_coord_bounds (cs lat1 lon1 lat2 lon2 r : ℝ)
    (hcs : 0 < cs) (hr0 : 0 < r)
    (hb1 : |lat1| ≤ 1) (hb2 : |lat2| ≤ 1) (hb3 : |lon1| ≤ 1) (hb4 : |lon2| ≤ 1)
    (hdist : distHaversine lat1 lon1 lat2 lon2 ≤ r) :
    |lat2 * 111000 / cs - lat1 * 111000 / cs| ≤ 0.999 * (r / cs) ∧
    |lon2 * 111000 * Real.cos (lat2 * Real.pi / 180) / cs -
      lon1 * 111000 * Real.cos (lat1 * Real.pi / 180) / cs| ≤ 0.999 * (r / cs) := by
  have hpg := Real.pi_gt_3141592
  have hpl := Real.pi_lt_3141593
  have hsub : |lat2 - lat1| ≤ 2 := by
    calc |lat2 - lat1| ≤ |lat2| + |lat1| := abs_sub _ _
    _ ≤ 2 := by linarith
  have hsubl : |lon2 - lon1| ≤ 2 := by
    calc |lon2 - lon1| ≤ |lon2| + |lon1| := abs_sub _ _
    _ ≤ 2 := by linarith
  have hrad1 : |lat1 * Real.pi / 180| ≤ 0.018 := abs_rad_le_box lat1 hb1
  have hrad2 : |lat2 * Real.pi / 180| ≤ 0.018 := abs_rad_le_box lat2 hb2
  have hc1 : (0.9998 : ℝ) ≤ Real.cos (lat1 * Real.pi / 180) := cos_ge_small _ hrad1
  have hc2 : (0.9998 : ℝ) ≤ Real.cos (lat2 * Real.pi / 180) := cos_ge_small _ hrad2
  have hcc : 0 ≤ Real.cos (lat1 * Real.pi / 180) * Real.cos (lat2 * Real.pi / 180) := by
    nlinarith
  have hA1 : haverA lat1 lon1 lat2 lon2 ≤ 1 := haverA_le_one_box _ _ _ _ hb1 hb2 hb3 hb4
  have hhalf : |(lat2 - lat1) * Real.pi / 180 / 2| ≤ 0.018 := abs_half_rad_le_box _ hsub
  have hlat := distHaversine_ge_lat lat1 lon1 lat2 lon2 hcc hA1 (by linarith [hhalf])
  have hdlat : |(lat2 - lat1) * Real.pi / 180| ≤ r / 6371000 := by
    linarith [hlat, hdist]
  have hdeg : |lat2 - lat1| * Real.pi / 180 ≤ r / 6371000 := by
    have he : |(lat2 - lat1) * Real.pi / 180| = |lat2 - lat1| * Real.pi / 180 := by
      rw [abs_div, abs_mul, abs_of_pos Real.pi_pos]
      norm_num
    rw [he] at hdlat
    exact hdlat
  have hdeg2 : |lat2 - lat1| ≤ r * 180 / (6371000 * 3.141592) := by
    have hint := mul_le_mul_of_nonneg_left (le_of_lt hpg) (abs_nonneg (lat2 - lat1))
    norm_num
    linarith
  constructor
  · have heq : lat2 * 111000 / cs - lat1 * 111000 / cs =
        (lat2 - lat1) * (111000 / cs) := by ring
    rw [heq, abs_mul, abs_of_pos (show (0 : ℝ) < 111000 / cs by positivity)]
    have hmul : |lat2 - lat1| * 111000 ≤ 0.999 * r := by
      norm_num at hdeg2
      linarith
    calc |lat2 - lat1| * (111000 / cs) = |lat2 - lat1| * 111000 / cs := by ring
    _ ≤ 0.999 * r / cs := by gcongr
    _ = 0.999 * (r / cs) := by ring
  · have hlon := distHaversine_ge_lon lat1 lon1 lat2 lon2 0.9998 (by norm_num) hc1 hc2 hA1
    have hS : |Real.sin ((lon2 - lon1) * Real.pi / 180 / 2)| ≤
        r / (2 * 6371000 * 0.9998) := by
      norm_num
      linarith [hlon, hdist]
    have hhalfl : |(lon2 - lon1) * Real.pi / 180 / 2| ≤ 0.018 := abs_half_rad_le_box _ hsubl
    have hcube := sub_cube_le_abs_sin ((lon2 - lon1) * Real.pi / 180 / 2) (by linarith)
    have he3 : |(lon2 - lon1) * Real.pi / 180 / 2| ^ 3 ≤
        0.018 * 0.018 * |(lon2 - lon1) * Real.pi / 180 / 2| := by
      have h1 : |(lon2 - lon1) * Real.pi / 180 / 2| * |(lon2 - lon1) * Real.pi / 180 / 2| ≤
          0.018 * 0.018 := mul_le_mul hhalfl hhalfl (abs_nonneg _) (by norm_num)
      nlinarith [h1, abs_nonneg ((lon2 - lon1) * Real.pi / 180 / 2)]
    have hang : 0.9999 * |(lon2 - lon1) * Real.pi / 180 / 2| ≤
        |Real.sin ((lon2 - lon1) * Real.pi / 180 / 2)| := by
      nlinarith [hcube, he3, abs_nonneg ((lon2 - lon1) * Real.pi / 180 / 2)]
    have hangle : |(lon2 - lon1) * Real.pi / 180 / 2| ≤
        r / (2 * 6371000 * 0.9998 * 0.9999) := by
      norm_num at hS ⊢
      linarith [hang]
    have heq2 : |(lon2 - lon1) * Real.pi / 180 / 2| = |lon2 - lon1| * Real.pi / 360 := by
      rw [abs_div, abs_div, abs_mul, abs_of_pos Real.pi_pos]
      rw [show |(180 : ℝ)| = 180 by norm_num, show |(2 : ℝ)| = 2 by norm_num]
      ring
    rw [heq2] at hangle
    have hdegl : |lon2 - lon1| ≤
        r * 360 / (2 * 6371000 * 0.9998 * 0.9999 * 3.141592) := by
      have hint := mul_le_mul_of_nonneg_left (le_of_lt hpg) (abs_nonneg (lon2 - lon1))
      norm_num at hangle ⊢
      linarith
    have hcdiff : |Real.cos (lat2 * Real.pi / 180) - Real.cos (lat1 * Real.pi / 180)| ≤
        0.018 * (r / 6371000) := by
      rw [Real.cos_sub_cos]
      rw [abs_mul, abs_mul, show |(-2 : ℝ)| = 2 by norm_num]
      have hm1 : |Real.sin ((lat2 * Real.pi / 180 + lat1 * Real.pi / 180) / 2)| ≤
          0.018 := by
        refine le_trans Real.abs_sin_le_abs ?_
        rw [abs_div, show |(2 : ℝ)| = 2 by norm_num]
        linarith [abs_add (lat2 * Real.pi / 180) (lat1 * Real.pi / 180)]
      have hm2 : |Real.sin ((lat2 * Real.pi / 180 - lat1 * Real.pi / 180) / 2)| ≤
          r / 6371000 / 2 := by
        refine le_trans Real.abs_sin_le_abs ?_
        rw [abs_div, show |(2 : ℝ)| = 2 by norm_num]
        rw [show lat2 * Real.pi / 180 - lat1 * Real.pi / 180 =
            (lat2 - lat1) * Real.pi / 180 by ring]
        linarith [hdlat]
      have hprod : |Real.sin ((lat2 * Real.pi / 180 + lat1 * Real.pi / 180) / 2)| *
          |Real.sin ((lat2 * Real.pi / 180 - lat1 * Real.pi / 180) / 2)| ≤
          0.018 * (r / 6371000 / 2) := mul_le_mul hm1 hm2 (abs_nonneg _) (by norm_num)
      linarith [hprod]
    have hdecomp : lon2 * 111000 * Real.cos (lat2 * Real.pi / 180) / cs -
        lon1 * 111000 * Real.cos (lat1 * Real.pi / 180) / cs =
        ((lon2 - lon1) * Real.cos (lat2 * Real.pi / 180) +
          lon1 * (Real.cos (lat2 * Real.pi / 180) - Real.cos (lat1 * Real.pi / 180))) *
          (111000 / cs) := by ring
    rw [hdecomp, abs_mul, abs_of_pos (show (0 : ℝ) < 111000 / cs by positivity)]
    have habs1 : |(lon2 - lon1) * Real.cos (lat2 * Real.pi / 180) +
        lon1 * (Real.cos (lat2 * Real.pi / 180) - Real.cos (lat1 * Real.pi / 180))| ≤
        |lon2 - lon1| + 0.018 * (r / 6371000) := by
      calc |(lon2 - lon1) * Real.cos (lat2 * Real.pi / 180) +
          lon1 * (Real.cos (lat2 * Real.pi / 180) - Real.cos (lat1 * Real.pi / 180))| ≤
          |(lon2 - lon1) * Real.cos (lat2 * Real.pi / 180)| +
          |lon1 * (Real.cos (lat2 * Real.pi / 180) - Real.cos (lat1 * Real.pi / 180))| :=
        abs_add _ _
      _ = |lon2 - lon1| * |Real.cos (lat2 * Real.pi / 180)| +
          |lon1| * |Real.cos (lat2 * Real.pi / 180) - Real.cos (lat1 * Real.pi / 180)| := by
        rw [abs_mul, abs_mul]
      _ ≤ |lon2 - lon1| * 1 + 1 * (0.018 * (r / 6371000)) := by
        have hA := mul_le_mul_of_nonneg_left (Real.abs_cos_le_one (lat2 * Real.pi / 180))
          (abs_nonneg (lon2 - lon1))
        have hB := mul_le_mul hb3 hcdiff (abs_nonneg _) (by norm_num : (0 : ℝ) ≤ 1)
        linarith [hA, hB]
      _ = |lon2 - lon1| + 0.018 * (r / 6371000) := by ring
    have hfinal : (|lon2 - lon1| + 0.018 * (r / 6371000)) * 111000 ≤ 0.999 * r := by
      norm_num at hdegl ⊢
      linarith
    calc |(lon2 - lon1) * Real.cos (lat2 * Real.pi / 180) +
        lon1 * (Real.cos (lat2 * Real.pi / 180) - Real.cos (lat1 * Real.pi / 180))| *
        (111000 / cs) ≤
        (|lon2 - lon1| + 0.018 * (r / 6371000)) * (111000 / cs) :=
      mul_le_mul_of_nonneg_right habs1 (by positivity)
    _ = (|lon2 - lon1| + 0.018 * (r / 6371000)) * 111000 / cs := by ring
    _ ≤ 0.999 * r / cs := by gcongr
    _ = 0.999 * (r / cs) := by ring

/-- Claim C3 as amended: the no-false-negative guarantee of
`SpatialIndex.query` holds on a coordinate box around the equator: if every
inserted point and the query point have latitude and longitude within 1 degree
of zero, the cell size is positive and at most the radius, then every inserted
point within `radiusMeters` (haversine) of the query point is returned.  (The
unrestricted claim is false: see the counterexample at 80°N, 178°E.) -/
theorem C3_amended_query_superset (cs r lat lon : ℝ) (points : List StationRec)
    (q : StationRec)
    (hcs : 0 < cs) (hrcs : cs ≤ r)
    (hblat : |lat| ≤ 1) (hblon : |lon| ≤ 1)
    (hq : q ∈ points) (hql : |q.lat| ≤ 1) (hqo : |q.lon| ≤ 1)
    (hdist : distHaversine lat lon q.lat q.lon ≤ r) :
    q ∈ ((SpatialIndex.create cs).addAll points).query lat lon r := by
  have hr0 : 0 < r := lt_of_lt_of_le hcs hrcs
  obtain ⟨hyb, hxb⟩ :=
    key_coord_bounds cs lat lon q.lat q.lon r hcs hr0 hblat hql hblon hqo hdist
  obtain ⟨cell, hcell, hqc⟩ := addAll_bucket points (SpatialIndex.create cs) q hq
  have hscell : ((SpatialIndex.create cs).addAll points).cellSize = cs :=
    addAll_cellSize points (SpatialIndex.create cs)
  rw [mem_query_iff, hscell]
  have hceil : (0.999 * (r / cs)) < ((⌈r / cs⌉ + 1 : ℤ) : ℝ) := by
    have h1 := Int.le_ceil (r / cs)
    have h2 : 0 < r / cs := by positivity
    push_cast
    linarith
  have hy2 : |⌊q.lat * 111000 / cs⌋ - ⌊lat * 111000 / cs⌋| ≤ ⌈r / cs⌉ + 1 :=
    abs_floor_sub_le _ _ _ (lt_of_le_of_lt hyb hceil)
  have hx2 : |⌊q.lon * 111000 * Real.cos (q.lat * Real.pi / 180) / cs⌋ -
      ⌊lon * 111000 * Real.cos (lat * Real.pi / 180) / cs⌋| ≤ ⌈r / cs⌉ + 1 :=
    abs_floor_sub_le _ _ _ (lt_of_le_of_lt hxb hceil)
  have hy3 := abs_le.mp hy2
  have hx3 := abs_le.mp hx2
  refine ⟨(gridKey cs q.lat q.lon).2 - (gridKey cs lat lon).2,
          (gridKey cs q.lat q.lon).1 - (gridKey cs lat lon).1,
          ?_, ?_, ?_, ?_, ?_⟩
  · exact hy3.1
  · exact hy3.2
  · exact hx3.1
  · exact hx3.2
  · have hpair : ∀ (p c : ℤ × ℤ),
        (c.1 + (p.1 - c.1), c.2 + (p.2 - c.2)) = p := by
      intro p c
      cases p
      cases c
      dsimp only
      rw [Prod.mk.injEq]
      omega
    rw [hpair (gridKey cs q.lat q.lon) (gridKey cs lat lon)]
    exact ⟨cell, hcell, hqc⟩

theorem C3_amended_query_superset_witness :
    distHaversine 0 0 (⟨1, 0, 0⟩ : StationRec).lat (⟨1, 0, 0⟩ : StationRec).lon ≤ 100 ∧
    (⟨1, 0, 0⟩ : StationRec) ∈
      ((SpatialIndex.create 100).addAll [⟨1, 0, 0⟩]).query 0 0 100 := by
  have hdist : distHaversine 0 0 (⟨1, 0, 0⟩ : StationRec).lat
      (⟨1, 0, 0⟩ : StationRec).lon ≤ 100 := by
    show distHaversine 0 0 0 0 ≤ 100
    rw [distHaversine_same_lon 0 0 0 (by norm_num) (by norm_num [Real.pi_nonneg])]
    norm_num
  refine ⟨hdist, C3_amended_query_superset 100 100 0 0 [⟨1, 0, 0⟩] ⟨1, 0, 0⟩
    (by norm_num) le_rfl (by norm_num) (by norm_num)
    (by simp) ?_ ?_ hdist⟩
  · show |(0 : ℝ)| ≤ 1
    norm_num
  · show |(0 : ℝ)| ≤ 1
    norm_num

/-! ### C6: generateTransferEdges -/

theorem foldl_id_of_mem {β γ : Type} (f : β → γ → β) :
    ∀ (l : List γ) (acc : β), (∀ b x, x ∈ l → f b x = b) → l.foldl f acc = acc := by
  intro l
  induction l with
  | nil =>
    intro acc h
    rfl
  | cons a t ih =>
    intro acc h
    rw [List.foldl_cons, h acc a (List.mem_cons_self a t)]
    exact ih acc (fun b x hx => h b x (List.mem_cons_of_mem a hx))

theorem foldl_single {β γ : Type} (f : β → γ → β) :
    ∀ (l : List γ) (d0 : γ) (acc : β), d0 ∈ l → l.Nodup →
      (∀ b x, x ∈ l → x ≠ d0 → f b x = b) → l.foldl f acc = f acc d0 := by
  intro l
  induction l with
  | nil =>
    intro d0 acc h
    simp at h
  | cons a t ih =>
    intro d0 acc hmem hnd hid
    rw [List.foldl_cons]
    rcases List.mem_cons.mp hmem with he | ht
    · subst he
      have hnin : d0 ∉ t := (List.nodup_cons.mp hnd).1
      exact foldl_id_of_mem f t (f acc d0)
        (fun b x hx => hid b x (List.mem_cons_of_mem _ hx) (fun he2 => hnin (he2 ▸ hx)))
    · have hne : a ≠ d0 := fun he2 => (List.nodup_cons.mp hnd).1 (he2 ▸ ht)
      rw [hid acc a (List.mem_cons_self _ _) hne]
      exact ih d0 acc ht (List.nodup_cons.mp hnd).2
        (fun b x hx hxne => hid b x (List.mem_cons_of_mem _ hx) hxne)

theorem mem_offsets3x3 (d : ℤ × ℤ) (h1 : -1 ≤ d.1 ∧ d.1 ≤ 1) (h2 : -1 ≤ d.2 ∧ d.2 ≤ 1) :
    d ∈ TransitGraph.offsets3x3 := by
  obtain ⟨dx, dy⟩ := d
  dsimp only at h1 h2
  have hx : dx = -1 ∨ dx = 0 ∨ dx = 1 := by omega
  have hy : dy = -1 ∨ dy = 0 ∨ dy = 1 := by omega
  rcases hx with rfl | rfl | rfl <;> rcases hy with rfl | rfl | rfl <;>
    simp [TransitGraph.offsets3x3]

theorem offsets3x3_nodup : TransitGraph.offsets3x3.Nodup := by
  decide

theorem lat6_rad : lat6 * Real.pi / 180 = 80 * Real.pi / 180 + 150 / 6371000 := by
  show (80 + 150 * 180 / (6371000 * Real.pi)) * Real.pi / 180 =
    80 * Real.pi / 180 + 150 / 6371000
  field_simp
  ring

theorem cos_gap_80_150 :
    Real.cos (80 * Real.pi / 180) - Real.cos (80 * Real.pi / 180 + 150 / 6371000) ≥
      0.0000207 := by
  have hpl := Real.pi_lt_3141593
  have hpg := Real.pi_gt_3141592
  have hid : Real.cos (80 * Real.pi / 180) -
      Real.cos (80 * Real.pi / 180 + 150 / 6371000) =
      2 * Real.sin (80 * Real.pi / 180 + 75 / 6371000) * Real.sin (75 / 6371000) := by
    rw [Real.cos_sub_cos]
    rw [show (80 * Real.pi / 180 + (80 * Real.pi / 180 + 150 / 6371000)) / 2 =
        80 * Real.pi / 180 + 75 / 6371000 by ring]
    rw [show (80 * Real.pi / 180 - (80 * Real.pi / 180 + 150 / 6371000)) / 2 =
        -(75 / 6371000 : ℝ) by ring]
    rw [Real.sin_neg]
    ring
  have hs1 : Real.sin (75 / 6371000 : ℝ) ≥ 0.0000117 := by
    have h := Real.sin_gt_sub_cube (show (0 : ℝ) < 75 / 6371000 by norm_num)
      (show (75 / 6371000 : ℝ) ≤ 1 by norm_num)
    nlinarith [h]
  have hs2 : Real.sin (80 * Real.pi / 180 + 75 / 6371000) ≥ 0.984 := by
    have he : Real.sin (80 * Real.pi / 180 + 75 / 6371000) =
        Real.cos (Real.pi / 18 - 75 / 6371000) := by
      rw [← Real.cos_pi_div_two_sub]
      congr 1
      ring
    rw [he]
    have hb := @Real.one_sub_sq_div_two_le_cos (Real.pi / 18 - 75 / 6371000)
    have ht1 : Real.pi / 18 - 75 / 6371000 ≤ 0.1745330 := by linarith
    have ht0 : (0 : ℝ) ≤ Real.pi / 18 - 75 / 6371000 := by linarith
    have hsq : (Real.pi / 18 - 75 / 6371000) * (Real.pi / 18 - 75 / 6371000) ≤
        0.1745330 * 0.1745330 := mul_le_mul ht1 ht1 ht0 (by norm_num)
    nlinarith [hb, hsq]
  rw [hid]
  nlinarith [hs1, hs2]

theorem C6_x_gap : (gridKey 200 lat6 179).1 + 2 ≤ (gridKey 200 (80 : ℝ) 179).1 := by
  unfold gridKey
  dsimp only
  rw [lat6_rad]
  have hgap : (179 : ℝ) * 111000 * Real.cos (80 * Real.pi / 180) / 200 -
      179 * 111000 * Real.cos (80 * Real.pi / 180 + 150 / 6371000) / 200 ≥ 2.05 := by
    nlinarith [cos_gap_80_150]
  have h1 := Int.floor_le
    ((179 : ℝ) * 111000 * Real.cos (80 * Real.pi / 180 + 150 / 6371000) / 200)
  have h2 := Int.lt_floor_add_one
    ((179 : ℝ) * 111000 * Real.cos (80 * Real.pi / 180) / 200)
  have hlt : ((⌊(179 : ℝ) * 111000 *
      Real.cos (80 * Real.pi / 180 + 150 / 6371000) / 200⌋ : ℝ) + 1) <
      ((⌊(179 : ℝ) * 111000 * Real.cos (80 * Real.pi / 180) / 200⌋ : ℝ)) := by
    linarith
  have hint : (⌊(179 : ℝ) * 111000 *
      Real.cos (80 * Real.pi / 180 + 150 / 6371000) / 200⌋ + 1) <
      ⌊(179 : ℝ) * 111000 * Real.cos (80 * Real.pi / 180) / 200⌋ := by
    exact_mod_cast hlt
  omega

theorem offsets3x3_bounds : ∀ d ∈ TransitGraph.offsets3x3,
    (-1 ≤ d.1 ∧ d.1 ≤ 1) ∧ (-1 ≤ d.2 ∧ d.2 ≤ 1) := by
  intro d hd
  fin_cases hd <;> norm_num

theorem buildTransferGrid_pair (cs : ℝ) (n1 n2 : TGNode ℝ)
    (hk : gridKey cs n1.lat n1.lon ≠ gridKey cs n2.lat n2.lon) :
    TransitGraph.buildTransferGrid cs [n1, n2] =
      ((JsMap.empty : JsMap (ℤ × ℤ) (List (TGNode ℝ))).set
        (gridKey cs n1.lat n1.lon) [n1]).set (gridKey cs n2.lat n2.lon) [n2] := by
  unfold TransitGraph.buildTransferGrid
  rw [List.foldl_cons, List.foldl_cons, List.foldl_nil]
  dsimp only
  simp only [JsMap.get_empty]
  rw [JsMap.get_set_ne _ _ _ _ hk, JsMap.get_empty]

theorem transferScanNode_id (grid : JsMap (ℤ × ℤ) (List (TGNode ℝ))) (thr cs : ℝ)
    (acc : JsMap ℕ (TGNode ℝ)) (n : TGNode ℝ)
    (hcells : ∀ d ∈ TransitGraph.offsets3x3,
      grid.get ((gridKey cs n.lat n.lon).1 + d.1, (gridKey cs n.lat n.lon).2 + d.2) =
        none ∨
      grid.get ((gridKey cs n.lat n.lon).1 + d.1, (gridKey cs n.lat n.lon).2 + d.2) =
        some [n]) :
    TransitGraph.transferScanNode grid thr cs acc n = acc := by
  unfold TransitGraph.transferScanNode
  apply foldl_id_of_mem
  intro b d hd
  unfold TransitGraph.transferCell
  rcases hcells d hd with h | h
  · rw [h]
  · rw [h]
    show List.foldl (TransitGraph.transferUpdate thr n) b [n] = b
    rw [List.foldl_cons, List.foldl_nil]
    unfold TransitGraph.transferUpdate
    rw [if_pos rfl]

theorem C6_keys_ne : gridKey 200 (80 : ℝ) 179 ≠ gridKey 200 lat6 179 := by
  intro h
  have h1 := congrArg Prod.fst h
  have h2 := C6_x_gap
  omega

set_option maxHeartbeats 1600000 in
theorem tg6_generate_id : tg6.generateTransferEdges 200 = tg6 := by
  have hval : tg6.nodes.values =
      [⟨80, 179, JsMap.empty, 1⟩, ⟨lat6, 179, JsMap.empty, 2⟩] := rfl
  have hcells1 : ∀ d ∈ TransitGraph.offsets3x3,
      (((JsMap.empty : JsMap (ℤ × ℤ) (List (TGNode ℝ))).set
        (gridKey 200 (80 : ℝ) 179) [⟨80, 179, JsMap.empty, 1⟩]).set
        (gridKey 200 lat6 179) [⟨lat6, 179, JsMap.empty, 2⟩]).get
        ((gridKey 200 (80 : ℝ) 179).1 + d.1, (gridKey 200 (80 : ℝ) 179).2 + d.2) =
        none ∨
      (((JsMap.empty : JsMap (ℤ × ℤ) (List (TGNode ℝ))).set
        (gridKey 200 (80 : ℝ) 179) [⟨80, 179, JsMap.empty, 1⟩]).set
        (gridKey 200 lat6 179) [⟨lat6, 179, JsMap.empty, 2⟩]).get
        ((gridKey 200 (80 : ℝ) 179).1 + d.1, (gridKey 200 (80 : ℝ) 179).2 + d.2) =
        some [⟨80, 179, JsMap.empty, 1⟩] := by
    intro d hd
    obtain ⟨⟨hb1, hb2⟩, hb3, hb4⟩ := offsets3x3_bounds d hd
    have hne2 : gridKey 200 lat6 179 ≠
        ((gridKey 200 (80 : ℝ) 179).1 + d.1, (gridKey 200 (80 : ℝ) 179).2 + d.2) := by
      intro h
      have h1 := congrArg Prod.fst h
      dsimp only at h1
      have h2 := C6_x_gap
      omega
    by_cases h80 : gridKey 200 (80 : ℝ) 179 =
        ((gridKey 200 (80 : ℝ) 179).1 + d.1, (gridKey 200 (80 : ℝ) 179).2 + d.2)
    · right
      rw [JsMap.get_set_ne _ _ _ _ hne2, ← h80, JsMap.get_set_self]
    · left
      rw [JsMap.get_set_ne _ _ _ _ hne2, JsMap.get_set_ne _ _ _ _ h80, JsMap.get_empty]
  have hcells2 : ∀ d ∈ TransitGraph.offsets3x3,
      (((JsMap.empty : JsMap (ℤ × ℤ) (List (TGNode ℝ))).set
        (gridKey 200 (80 : ℝ) 179) [⟨80, 179, JsMap.empty, 1⟩]).set
        (gridKey 200 lat6 179) [⟨lat6, 179, JsMap.empty, 2⟩]).get
        ((gridKey 200 lat6 179).1 + d.1, (gridKey 200 lat6 179).2 + d.2) = none ∨
      (((JsMap.empty : JsMap (ℤ × ℤ) (List (TGNode ℝ))).set
        (gridKey 200 (80 : ℝ) 179) [⟨80, 179, JsMap.empty, 1⟩]).set
        (gridKey 200 lat6 179) [⟨lat6, 179, JsMap.empty, 2⟩]).get
        ((gridKey 200 lat6 179).1 + d.1, (gridKey 200 lat6 179).2 + d.2) =
        some [⟨lat6, 179, JsMap.empty, 2⟩] := by
    intro d hd
    obtain ⟨⟨hb1, hb2⟩, hb3, hb4⟩ := offsets3x3_bounds d hd
    have hne80 : gridKey 200 (80 : ℝ) 179 ≠
        ((gridKey 200 lat6 179).1 + d.1, (gridKey 200 lat6 179).2 + d.2) := by
      intro h
      have h1 := congrArg Prod.fst h
      dsimp only at h1
      have h2 := C6_x_gap
      omega
    by_cases h6 : gridKey 200 lat6 179 =
        ((gridKey 200 lat6 179).1 + d.1, (gridKey 200 lat6 179).2 + d.2)
    · right
      rw [← h6, JsMap.get_set_self]
    · left
      rw [JsMap.get_set_ne _ _ _ _ h6, JsMap.get_set_ne _ _ _ _ hne80, JsMap.get_empty]
  unfold TransitGraph.generateTransferEdges
  dsimp only
  rw [hval]
  rw [buildTransferGrid_pair 200 ⟨80, 179, JsMap.empty, 1⟩ ⟨lat6, 179, JsMap.empty, 2⟩
    C6_keys_ne]
  rw [List.foldl_cons, List.foldl_cons, List.foldl_nil]
  dsimp only
  rw [transferScanNode_id _ 200 200 tg6.nodes _ hcells1]
  rw [transferScanNode_id _ 200 200 tg6.nodes _ hcells2]

set_option maxHeartbeats 1600000 in
/-- Counterexample to claim C6: the two stop-nodes of `tg6` sit exactly 150 m
apart (well within the 200 m threshold) with no edge between them, yet
`generateTransferEdges 200` adds nothing: the grid key's x-cell is scaled by
the cosine of each node's own latitude, and near 80°N, 179°E the two cells
are two columns apart, outside the 3×3 scan window. -/
theorem C6_counterexample :
    distHaversine 80 179 lat6 179 = 150 ∧ (150 : ℝ) ≤ 200 ∧
    tg6.adj 1 2 = none ∧ tg6.adj 2 1 = none ∧
    (tg6.generateTransferEdges 200).adj 1 2 = none ∧
    (tg6.generateTransferEdges 200).adj 2 1 = none := by
  have hd : (lat6 - 80) * Real.pi / 180 = 150 / 6371000 := by
    have h := lat6_rad
    nlinarith [h]
  refine ⟨?_, by norm_num, by rfl, by rfl, ?_, ?_⟩
  · rw [distHaversine_same_lon 80 lat6 179 (by rw [hd]; norm_num)
      (by rw [hd]; linarith [Real.pi_gt_3141592])]
    rw [hd]
    norm_num
  · rw [tg6_generate_id]
    rfl
  · rw [tg6_generate_id]
    rfl

theorem transferUpdate_self (thr : ℝ) (n : TGNode ℝ) (acc : JsMap ℕ (TGNode ℝ)) :
    TransitGraph.transferUpdate thr n acc n = acc := by
  unfold TransitGraph.transferUpdate
  rw [if_pos rfl]

theorem transferScanNode_single (grid : JsMap (ℤ × ℤ) (List (TGNode ℝ)))
    (thr cs : ℝ) (acc : JsMap ℕ (TGNode ℝ)) (n1 n2 : TGNode ℝ) (d0 : ℤ × ℤ)
    (hd0 : d0 ∈ TransitGraph.offsets3x3)
    (hhit : grid.get ((gridKey cs n1.lat n1.lon).1 + d0.1,
        (gridKey cs n1.lat n1.lon).2 + d0.2) = some [n2] ∨
      grid.get ((gridKey cs n1.lat n1.lon).1 + d0.1,
        (gridKey cs n1.lat n1.lon).2 + d0.2) = some [n1, n2] ∨
      grid.get ((gridKey cs n1.lat n1.lon).1 + d0.1,
        (gridKey cs n1.lat n1.lon).2 + d0.2) = some [n2, n1])
    (hmiss : ∀ d ∈ TransitGraph.offsets3x3, d ≠ d0 →
      grid.get ((gridKey cs n1.lat n1.lon).1 + d.1,
        (gridKey cs n1.lat n1.lon).2 + d.2) = none ∨
      grid.get ((gridKey cs n1.lat n1.lon).1 + d.1,
        (gridKey cs n1.lat n1.lon).2 + d.2) = some [n1]) :
    TransitGraph.transferScanNode grid thr cs acc n1 =
      TransitGraph.transferUpdate thr n1 acc n2 := by
  unfold TransitGraph.transferScanNode
  rw [foldl_single (TransitGraph.transferCell grid thr cs n1) TransitGraph.offsets3x3
    d0 acc hd0 offsets3x3_nodup ?_]
  · unfold TransitGraph.transferCell
    rcases hhit with h | h | h
    · rw [h]
      show List.foldl (TransitGraph.transferUpdate thr n1) acc [n2] = _
      rw [List.foldl_cons, List.foldl_nil]
    · rw [h]
      show List.foldl (TransitGraph.transferUpdate thr n1) acc [n1, n2] = _
      rw [List.foldl_cons, List.foldl_cons, List.foldl_nil, transferUpdate_self]
    · rw [h]
      show List.foldl (TransitGraph.transferUpdate thr n1) acc [n2, n1] = _
      rw [List.foldl_cons, List.foldl_cons, List.foldl_nil, transferUpdate_self]
  · intro b x hx hxne
    unfold TransitGraph.transferCell
    rcases hmiss x hx hxne with h | h
    · rw [h]
    · rw [h]
      show List.foldl (TransitGraph.transferUpdate thr n1) b [n1] = b
      rw [List.foldl_cons, List.foldl_nil, transferUpdate_self]

theorem transferUpdate_adds (thr : ℝ) (n1 n2 : TGNode ℝ) (acc : JsMap ℕ (TGNode ℝ))
    (cur : TGNode ℝ) (hid : ¬(n1.id = n2.id))
    (hdist : distHaversine n1.lat n1.lon n2.lat n2.lon ≤ thr)
    (hacc : acc.get n1.id = some cur)
    (hnone : cur.neighbors.get n2.id = none) :
    TransitGraph.transferUpdate thr n1 acc n2 =
      acc.set n1.id { cur with neighbors := cur.neighbors.set n2.id (distHaversine n1.lat n1.lon n2.lat n2.lon / 1.3) } := by
  unfold TransitGraph.transferUpdate
  rw [if_neg hid]
  dsimp only
  rw [if_pos hdist, hacc]
  dsimp only
  rw [hnone]

theorem distHaversine_comm (lat1 lon1 lat2 lon2 : ℝ) :
    distHaversine lat1 lon1 lat2 lon2 = distHaversine lat2 lon2 lat1 lon1 := by
  unfold distHaversine
  dsimp only
  rw [show (lat1 - lat2) * Real.pi / 180 / 2 = -((lat2 - lat1) * Real.pi / 180 / 2) by ring]
  rw [show (lon1 - lon2) * Real.pi / 180 / 2 = -((lon2 - lon1) * Real.pi / 180 / 2) by ring]
  rw [Real.sin_neg, Real.sin_neg]
  ring_nf

theorem buildTransferGrid_pair_same (cs : ℝ) (n1 n2 : TGNode ℝ)
    (hk : gridKey cs n1.lat n1.lon = gridKey cs n2.lat n2.lon) :
    TransitGraph.buildTransferGrid cs [n1, n2] =
      ((JsMap.empty : JsMap (ℤ × ℤ) (List (TGNode ℝ))).set
        (gridKey cs n1.lat n1.lon) [n1]).set (gridKey cs n1.lat n1.lon) [n1, n2] := by
  unfold TransitGraph.buildTransferGrid
  rw [List.foldl_cons, List.foldl_cons, List.foldl_nil]
  dsimp only
  simp only [JsMap.get_empty]
  rw [← hk, JsMap.get_set_self]
  rfl

set_option maxHeartbeats 3200000 in
/-- Claim C6 as amended: on the 1-degree coordinate box the scenario holds:
for a graph of two distinct stop-nodes within the 200 m threshold of each
other and no prior edge, `generateTransferEdges 200` adds the walking edge in
both directions with weight `dist/1.3` seconds.  (At extreme coordinates the
claim fails: see the 150 m counterexample at 80°N, 179°E.) -/
theorem C6_amended_transfer_edges (lat1 lon1 lat2 lon2 : ℝ)
    (hb1 : |lat1| ≤ 1) (hb2 : |lat2| ≤ 1) (hb3 : |lon1| ≤ 1) (hb4 : |lon2| ≤ 1)
    (hdist : distHaversine lat1 lon1 lat2 lon2 ≤ 200) :
    ((((TransitGraph.emptyGraph : TransitGraph ℝ).addNode 1 lat1 lon1).addNode 2
        lat2 lon2).generateTransferEdges 200).adj 1 2 =
      some (distHaversine lat1 lon1 lat2 lon2 / 1.3) ∧
    ((((TransitGraph.emptyGraph : TransitGraph ℝ).addNode 1 lat1 lon1).addNode 2
        lat2 lon2).generateTransferEdges 200).adj 2 1 =
      some (distHaversine lat1 lon1 lat2 lon2 / 1.3) := by
  obtain ⟨hyR, hxR⟩ := key_coord_bounds 200 lat1 lon1 lat2 lon2 200 (by norm_num)
    (by norm_num) hb1 hb2 hb3 hb4 hdist
  have hky : |(gridKey 200 lat2 lon2).2 - (gridKey 200 lat1 lon1).2| ≤ 1 := by
    unfold gridKey
    dsimp only
    refine abs_floor_sub_le _ _ 1 (lt_of_le_of_lt hyR (by norm_num))
  have hkx : |(gridKey 200 lat2 lon2).1 - (gridKey 200 lat1 lon1).1| ≤ 1 := by
    unfold gridKey
    dsimp only
    refine abs_floor_sub_le _ _ 1 (lt_of_le_of_lt hxR (by norm_num))
  have hpadd : ∀ k : ℤ × ℤ, (k.1 + 0, k.2 + 0) = k := by
    intro k
    cases k
    simp
  have hupd1 : ∀ acc : JsMap ℕ (TGNode ℝ),
      acc.get 1 = some ⟨lat1, lon1, JsMap.empty, 1⟩ →
      TransitGraph.transferUpdate 200 ⟨lat1, lon1, JsMap.empty, 1⟩ acc
        ⟨lat2, lon2, JsMap.empty, 2⟩ =
      acc.set 1 ⟨lat1, lon1,
        (JsMap.empty : JsMap ℕ ℝ).set 2 (distHaversine lat1 lon1 lat2 lon2 / 1.3), 1⟩ := by
    intro acc hacc
    exact transferUpdate_adds 200 ⟨lat1, lon1, JsMap.empty, 1⟩
      ⟨lat2, lon2, JsMap.empty, 2⟩ acc ⟨lat1, lon1, JsMap.empty, 1⟩
      (by show ¬((1 : ℕ) = 2); decide) hdist hacc rfl
  have hupd2 : ∀ acc : JsMap ℕ (TGNode ℝ),
      acc.get 2 = some ⟨lat2, lon2, JsMap.empty, 2⟩ →
      TransitGraph.transferUpdate 200 ⟨lat2, lon2, JsMap.empty, 2⟩ acc
        ⟨lat1, lon1, JsMap.empty, 1⟩ =
      acc.set 2 ⟨lat2, lon2,
        (JsMap.empty : JsMap ℕ ℝ).set 1 (distHaversine lat2 lon2 lat1 lon1 / 1.3), 2⟩ := by
    intro acc hacc
    exact transferUpdate_adds 200 ⟨lat2, lon2, JsMap.empty, 2⟩
      ⟨lat1, lon1, JsMap.empty, 1⟩ acc ⟨lat2, lon2, JsMap.empty, 2⟩
      (by show ¬((2 : ℕ) = 1); decide)
      (by show distHaversine lat2 lon2 lat1 lon1 ≤ 200
          rw [distHaversine_comm lat2 lon2 lat1 lon1]
          exact hdist)
      hacc rfl
  have hscan1 : TransitGraph.transferScanNode
      (TransitGraph.buildTransferGrid 200
        [⟨lat1, lon1, JsMap.empty, 1⟩, ⟨lat2, lon2, JsMap.empty, 2⟩]) 200 200
      (((JsMap.empty : JsMap ℕ (TGNode ℝ)).set 1 ⟨lat1, lon1, JsMap.empty, 1⟩).set 2
        ⟨lat2, lon2, JsMap.empty, 2⟩) ⟨lat1, lon1, JsMap.empty, 1⟩ =
      TransitGraph.transferUpdate 200 ⟨lat1, lon1, JsMap.empty, 1⟩
        (((JsMap.empty : JsMap ℕ (TGNode ℝ)).set 1 ⟨lat1, lon1, JsMap.empty, 1⟩).set 2
          ⟨lat2, lon2, JsMap.empty, 2⟩) ⟨lat2, lon2, JsMap.empty, 2⟩ := by
    by_cases hk : gridKey 200 lat1 lon1 = gridKey 200 lat2 lon2
    · rw [buildTransferGrid_pair_same 200 ⟨lat1, lon1, JsMap.empty, 1⟩
        ⟨lat2, lon2, JsMap.empty, 2⟩ hk]
      refine transferScanNode_single _ 200 200 _ _ _ (0, 0) (by decide) ?_ ?_
      · refine Or.inr (Or.inl ?_)
        dsimp only
        rw [hpadd (gridKey 200 lat1 lon1)]
        exact JsMap.get_set_self _ _ _
      · intro e he hne
        left
        dsimp only
        have hkne : gridKey 200 lat1 lon1 ≠
            ((gridKey 200 lat1 lon1).1 + e.1, (gridKey 200 lat1 lon1).2 + e.2) := by
          intro hcon
          apply hne
          have hc1 := congrArg Prod.fst hcon
          have hc2 := congrArg Prod.snd hcon
          dsimp only at hc1 hc2
          obtain ⟨e1, e2⟩ := e
          dsimp only at hc1 hc2
          rw [Prod.mk.injEq]
          omega
        rw [JsMap.get_set_ne _ _ _ _ hkne, JsMap.get_set_ne _ _ _ _ hkne, JsMap.get_empty]
    · rw [buildTransferGrid_pair 200 ⟨lat1, lon1, JsMap.empty, 1⟩
        ⟨lat2, lon2, JsMap.empty, 2⟩ hk]
      refine transferScanNode_single _ 200 200 _ _ _
        ((gridKey 200 lat2 lon2).1 - (gridKey 200 lat1 lon1).1,
          (gridKey 200 lat2 lon2).2 - (gridKey 200 lat1 lon1).2)
        (mem_offsets3x3 _ (by dsimp only; rw [abs_le] at hkx; omega)
          (by dsimp only; rw [abs_le] at hky; omega)) ?_ ?_
      · left
        dsimp only
        have hpair : ((gridKey 200 lat1 lon1).1 +
            ((gridKey 200 lat2 lon2).1 - (gridKey 200 lat1 lon1).1),
            (gridKey 200 lat1 lon1).2 +
            ((gridKey 200 lat2 lon2).2 - (gridKey 200 lat1 lon1).2)) =
            gridKey 200 lat2 lon2 := by
          rw [Prod.mk.injEq]
          omega
        rw [hpair]
        exact JsMap.get_set_self _ _ _
      · intro e he hne
        dsimp only
        have hne2 : gridKey 200 lat2 lon2 ≠
            ((gridKey 200 lat1 lon1).1 + e.1, (gridKey 200 lat1 lon1).2 + e.2) := by
          intro hcon
          apply hne
          have hc1 := congrArg Prod.fst hcon
          have hc2 := congrArg Prod.snd hcon
          dsimp only at hc1 hc2
          obtain ⟨e1, e2⟩ := e
          dsimp only at hc1 hc2
          rw [Prod.mk.injEq]
          omega
        rw [JsMap.get_set_ne _ _ _ _ hne2]
        by_cases h1 : gridKey 200 lat1 lon1 =
            ((gridKey 200 lat1 lon1).1 + e.1, (gridKey 200 lat1 lon1).2 + e.2)
        · right
          rw [← h1]
          exact JsMap.get_set_self _ _ _
        · left
          rw [JsMap.get_set_ne _ _ _ _ h1, JsMap.get_empty]
  have hscan2 : ∀ acc : JsMap ℕ (TGNode ℝ), TransitGraph.transferScanNode
      (TransitGraph.buildTransferGrid 200
        [⟨lat1, lon1, JsMap.empty, 1⟩, ⟨lat2, lon2, JsMap.empty, 2⟩]) 200 200
      acc ⟨lat2, lon2, JsMap.empty, 2⟩ =
      TransitGraph.transferUpdate 200 ⟨lat2, lon2, JsMap.empty, 2⟩ acc
        ⟨lat1, lon1, JsMap.empty, 1⟩ := by
    intro acc
    by_cases hk : gridKey 200 lat1 lon1 = gridKey 200 lat2 lon2
    · rw [buildTransferGrid_pair_same 200 ⟨lat1, lon1, JsMap.empty, 1⟩
        ⟨lat2, lon2, JsMap.empty, 2⟩ hk]
      refine transferScanNode_single _ 200 200 _ _ _ (0, 0) (by decide) ?_ ?_
      · refine Or.inr (Or.inr ?_)
        dsimp only
        rw [hpadd (gridKey 200 lat2 lon2), ← hk]
        exact JsMap.get_set_self _ _ _
      · intro e he hne
        left
        dsimp only
        have hkne : gridKey 200 lat1 lon1 ≠
            ((gridKey 200 lat2 lon2).1 + e.1, (gridKey 200 lat2 lon2).2 + e.2) := by
          intro hcon
          apply hne
          rw [hk] at hcon
          have hc1 := congrArg Prod.fst hcon
          have hc2 := congrArg Prod.snd hcon
          dsimp only at hc1 hc2
          obtain ⟨e1, e2⟩ := e
          dsimp only at hc1 hc2
          rw [Prod.mk.injEq]
          omega
        rw [JsMap.get_set_ne _ _ _ _ hkne, JsMap.get_set_ne _ _ _ _ hkne, JsMap.get_empty]
    · rw [buildTransferGrid_pair 200 ⟨lat1, lon1, JsMap.empty, 1⟩
        ⟨lat2, lon2, JsMap.empty, 2⟩ hk]
      refine transferScanNode_single _ 200 200 _ _ _
        ((gridKey 200 lat1 lon1).1 - (gridKey 200 lat2 lon2).1,
          (gridKey 200 lat1 lon1).2 - (gridKey 200 lat2 lon2).2)
        (mem_offsets3x3 _ (by dsimp only; rw [abs_le] at hkx; omega)
          (by dsimp only; rw [abs_le] at hky; omega)) ?_ ?_
      · left
        dsimp only
        have hpair : ((gridKey 200 lat2 lon2).1 +
            ((gridKey 200 lat1 lon1).1 - (gridKey 200 lat2 lon2).1),
            (gridKey 200 lat2 lon2).2 +
            ((gridKey 200 lat1 lon1).2 - (gridKey 200 lat2 lon2).2)) =
            gridKey 200 lat1 lon1 := by
          rw [Prod.mk.injEq]
          omega
        rw [hpair]
        have hne12 : gridKey 200 lat2 lon2 ≠ gridKey 200 lat1 lon1 := fun h => hk h.symm
        rw [JsMap.get_set_ne _ _ _ _ hne12]
        exact JsMap.get_set_self _ _ _
      · intro e he hne
        dsimp only
        have hne1 : gridKey 200 lat1 lon1 ≠
            ((gridKey 200 lat2 lon2).1 + e.1, (gridKey 200 lat2 lon2).2 + e.2) := by
          intro hcon
          apply hne
          have hc1 := congrArg Prod.fst hcon
          have hc2 := congrArg Prod.snd hcon
          dsimp only at hc1 hc2
          obtain ⟨e1, e2⟩ := e
          dsimp only at hc1 hc2
          rw [Prod.mk.injEq]
          omega
        by_cases h2 : gridKey 200 lat2 lon2 =
            ((gridKey 200 lat2 lon2).1 + e.1, (gridKey 200 lat2 lon2).2 + e.2)
        · right
          rw [← h2]
          exact JsMap.get_set_self _ _ _
        · left
          rw [JsMap.get_set_ne _ _ _ _ h2, JsMap.get_set_ne _ _ _ _ hne1, JsMap.get_empty]
  -- assemble the full run
  have hG : (((TransitGraph.emptyGraph : TransitGraph ℝ).addNode 1 lat1 lon1).addNode 2
      lat2 lon2).generateTransferEdges 200 =
      { nodes := ((((JsMap.empty : JsMap ℕ (TGNode ℝ)).set 1
          ⟨lat1, lon1, JsMap.empty, 1⟩).set 2 ⟨lat2, lon2, JsMap.empty, 2⟩).set 1
          ⟨lat1, lon1, (JsMap.empty : JsMap ℕ ℝ).set 2
            (distHaversine lat1 lon1 lat2 lon2 / 1.3), 1⟩).set 2
          ⟨lat2, lon2, (JsMap.empty : JsMap ℕ ℝ).set 1
            (distHaversine lat1 lon1 lat2 lon2 / 1.3), 2⟩,
        stations := [⟨1, lat1, lon1⟩, ⟨2, lat2, lon2⟩] } := by
    unfold TransitGraph.generateTransferEdges
    dsimp only
    rw [show (((TransitGraph.emptyGraph : TransitGraph ℝ).addNode 1 lat1 lon1).addNode 2
        lat2 lon2).nodes.values =
        [⟨lat1, lon1, JsMap.empty, 1⟩, ⟨lat2, lon2, JsMap.empty, 2⟩] from rfl]
    rw [List.foldl_cons, List.foldl_cons, List.foldl_nil]
    rw [show (((TransitGraph.emptyGraph : TransitGraph ℝ).addNode 1 lat1 lon1).addNode 2
        lat2 lon2).nodes =
        ((JsMap.empty : JsMap ℕ (TGNode ℝ)).set 1 ⟨lat1, lon1, JsMap.empty, 1⟩).set 2
          ⟨lat2, lon2, JsMap.empty, 2⟩ from rfl]
    rw [hscan1]
    rw [hupd1 (((JsMap.empty : JsMap ℕ (TGNode ℝ)).set 1
      ⟨lat1, lon1, JsMap.empty, 1⟩).set 2 ⟨lat2, lon2, JsMap.empty, 2⟩) rfl]
    rw [hscan2]
    rw [hupd2 _ (by
      rw [JsMap.get_set_ne _ _ _ _ (by decide : (1 : ℕ) ≠ 2)]
      exact JsMap.get_set_self _ _ _)]
    rw [distHaversine_comm lat2 lon2 lat1 lon1]
    rfl
  rw [hG]
  constructor
  · show (match ((((((JsMap.empty : JsMap ℕ (TGNode ℝ)).set 1
        ⟨lat1, lon1, JsMap.empty, 1⟩).set 2 ⟨lat2, lon2, JsMap.empty, 2⟩).set 1
        ⟨lat1, lon1, (JsMap.empty : JsMap ℕ ℝ).set 2
          (distHaversine lat1 lon1 lat2 lon2 / 1.3), 1⟩).set 2
        ⟨lat2, lon2, (JsMap.empty : JsMap ℕ ℝ).set 1
          (distHaversine lat1 lon1 lat2 lon2 / 1.3), 2⟩).get 1) with
      | some n => n.neighbors.get 2
      | none => none) = some (distHaversine lat1 lon1 lat2 lon2 / 1.3)
    rw [JsMap.get_set_ne _ _ _ _ (by decide : (2 : ℕ) ≠ 1), JsMap.get_set_self]
    dsimp only
    exact JsMap.get_set_self _ _ _
  · show (match ((((((JsMap.empty : JsMap ℕ (TGNode ℝ)).set 1
        ⟨lat1, lon1, JsMap.empty, 1⟩).set 2 ⟨lat2, lon2, JsMap.empty, 2⟩).set 1
        ⟨lat1, lon1, (JsMap.empty : JsMap ℕ ℝ).set 2
          (distHaversine lat1 lon1 lat2 lon2 / 1.3), 1⟩).set 2
        ⟨lat2, lon2, (JsMap.empty : JsMap ℕ ℝ).set 1
          (distHaversine lat1 lon1 lat2 lon2 / 1.3), 2⟩).get 2) with
      | some n => n.neighbors.get 1
      | none => none) = some (distHaversine lat1 lon1 lat2 lon2 / 1.3)
    rw [JsMap.get_set_self]
    dsimp only
    exact JsMap.get_set_self _ _ _

theorem C6_amended_transfer_edges_witness :
    distHaversine 0 0 0 0 ≤ 200 ∧
    (((((TransitGraph.emptyGraph : TransitGraph ℝ).addNode 1 0 0).addNode 2
        0 0).generateTransferEdges 200).adj 1 2 =
      some (distHaversine 0 0 0 0 / 1.3) ∧
    ((((TransitGraph.emptyGraph : TransitGraph ℝ).addNode 1 0 0).addNode 2
        0 0).generateTransferEdges 200).adj 2 1 =
      some (distHaversine 0 0 0 0 / 1.3)) := by
  have hd : distHaversine 0 0 0 0 ≤ 200 := by
    rw [distHaversine_same_lon 0 0 0 (by norm_num) (by norm_num [Real.pi_nonneg])]
    norm_num
  exact ⟨hd, C6_amended_transfer_edges 0 0 0 0 (by norm_num) (by norm_num)
    (by norm_num) (by norm_num) hd⟩
